import Mathlib

/-!
Shallow embedding of the recipe cost resolution engine of the Zavod
repository (src/database.py).  Python `Decimal` values are modelled as
exact rationals (the spec stipulates exact decimal arithmetic), SQLite
tables are modelled as association lists inside a `Store` snapshot, and
the `async` recursion of `calculate_recipe_cost` is modelled as a pure
fuel-indexed recursion (the fuel used at top level, `costFuel`, is large
enough for every run the cycle guard admits).  Exceptions are modelled by
`Except`; the `decimal.DivisionByZero` (or, for a zero dividend,
`decimal.InvalidOperation`) raised by the unguarded top-level division is
a dedicated error constructor.  The main embedding performs the
arithmetic exactly, which is the spec's stated intent for all decimal
arithmetic; a second family of definitions (`sigRound`, `decAdd`,
`decMul`, `decDiv` and the `...D` walker) models the arithmetic the
program actually performs under Python's default decimal context — every
operation result rounded to 28 significant digits, `ROUND_HALF_EVEN` —
and is used to exhibit the rounding drift the exact model hides.
-/

namespace Zavod

/-- One BOM line as stored in the `recipe_components` /
`recipe_blueprint_components` tables and returned by `get_recipe`. -/
structure RecipeComponent where
  resource_name : String
  quantity : ℚ
deriving Repr, DecidableEq

/-- The `RecipeComponent` dataclass of database.py: the authored BOM line
handed to `add_recipe`, carrying the advisory `unit_price` that is
written through to the `resources` table. -/
structure AuthoredComponent where
  resource_name : String
  quantity : ℚ
  unit_price : ℚ
deriving Repr, DecidableEq

/-- A row of the `recipes` table together with its component rows,
as assembled by `Database.get_recipe`. -/
structure Recipe where
  name : String
  output_quantity : ℚ
  is_temporary : Bool
  ship_type : Option String
  blueprint_cost : Option ℚ
  creation_cost : Option ℚ
  blueprint_creation_cost : Option ℚ
  components : List RecipeComponent
  blueprint_components : List RecipeComponent
deriving Repr, DecidableEq

/-- Immutable snapshot of the SQLite store that the evaluator reads:
the `recipes` table (with attached component rows), the `resources`
price table, the `ship_type_efficiencies` table and the
`global_efficiency` config entry. -/
structure Store where
  recipes : List Recipe
  resource_prices : List (String × ℚ)
  ship_type_efficiencies : List (String × ℚ)
  global_efficiency : Option ℚ
deriving Repr, DecidableEq

/-- The error taxonomy of the engine.  The first five match the Python
exceptions raised by `calculate_recipe_cost`; `decimalDivisionByZero`
and `decimalInvalidOperation` model the `decimal.DivisionByZero` and
`decimal.InvalidOperation` signals escaping the unguarded top-level
division (Python decimal raises the latter when the dividend is also
zero); `outOfFuel` is the artefact of the fuel embedding and is never
produced when the fuel exceeds the recursion depth admitted by the cycle
guard. -/
inductive CostError where
  | recipeNotFound (name : String)
  | resourcePriceNotFound (name : String)
  | circularReference (name : String)
  | invalidEfficiency
  | invalidRecipe (name : String)
  | decimalDivisionByZero
  | decimalInvalidOperation
  | outOfFuel
deriving Repr, DecidableEq

/-- Lexicographic code-point comparison of character lists: the order in
which Python `sorted` and the SQLite BINARY collation arrange the
(ASCII) resource names appearing in this development. -/
def charListLE : List Char → List Char → Bool
  | [], _ => true
  | _ :: _, [] => false
  | a :: as, b :: bs =>
    if a.toNat < b.toNat then true
    else if b.toNat < a.toNat then false
    else charListLE as bs

/-- Code-point lexicographic order on strings. -/
def stringLE (a b : String) : Bool :=
  charListLE a.data b.data

/-- Python `str.strip()` on the whitespace the stored ship types can
contain: drop leading and trailing whitespace characters. -/
def pyStrip (s : String) : String :=
  String.mk (((s.data.dropWhile Char.isWhitespace).reverse.dropWhile
    Char.isWhitespace).reverse)

/-- Sort key used by the `ORDER BY resource_name` clauses of `get_recipe`
and the `sorted(...)` calls that finalize breakdowns. -/
def componentLE (a b : RecipeComponent) : Bool :=
  stringLE a.resource_name b.resource_name

/-- Embedding of `Database.get_recipe`: find the recipe row by name and
return it with its component lists ordered by resource name. -/
def get_recipe (db : Store) (name : String) : Option Recipe :=
  (db.recipes.find? (fun r => r.name == name)).map
    (fun r =>
      { r with
        components := r.components.mergeSort componentLE
        blueprint_components := r.blueprint_components.mergeSort componentLE })

/-- Embedding of `Database.get_resource_unit_price`: stored terminal
price, `none` if the resource was never priced. -/
def get_resource_unit_price (db : Store) (name : String) : Option ℚ :=
  (db.resource_prices.find? (fun p => p.1 == name)).map (fun p => p.2)

/-- Embedding of `Database.get_ship_type_efficiency` (lookup by the
stripped ship type, `ship_type.strip()`). -/
def get_ship_type_efficiency (db : Store) (ship_type : String) : Option ℚ :=
  (db.ship_type_efficiencies.find? (fun p => p.1 == pyStrip ship_type)).map
    (fun p => p.2)

/-- Embedding of `Database.get_global_efficiency`: the stored config
value, defaulting to 100 when absent (or unparsable). -/
def get_global_efficiency (db : Store) : ℚ :=
  db.global_efficiency.getD 100

/-- Flattened cost breakdown under construction: entries
`(base_name, aggregated_quantity, unit_price)` in insertion order,
mirroring the Python dict `breakdown`. -/
abbrev Breakdown := List (String × ℚ × ℚ)

/-- One dict-update step of the merge loop of `recipe_cost`: add
`quantity` to the entry of `name` (overwriting its price with the newly
seen one, as the Python assignment does) or append a fresh entry. -/
def addToBreakdown : Breakdown → String → ℚ → ℚ → Breakdown
  | [], name, quantity, price => [(name, quantity, price)]
  | entry :: rest, name, quantity, price =>
    if entry.1 = name then (entry.1, entry.2.1 + quantity, price) :: rest
    else entry :: addToBreakdown rest name quantity price

/-- The `for base_name ... in component_breakdown.items()` merge loop of
`recipe_cost`: each nested entry contributes its per-unit quantity times
the effective component quantity. -/
def mergeBreakdown (breakdown : Breakdown) (component_breakdown : Breakdown)
    (component_quantity : ℚ) : Breakdown :=
  component_breakdown.foldl
    (fun acc entry =>
      addToBreakdown acc entry.1 (entry.2.1 * component_quantity) entry.2.2)
    breakdown

mutual

/-- Embedding of the inner closure `resource_cost` of
`calculate_recipe_cost`: resolve one resource name, either by recursive
expansion of a nested recipe (guarded by the `visiting` set and
normalized to one unit of the nested output) or by the stored terminal
price.  `fuel` decreases at each recursive descent. -/
def resource_cost (db : Store) (fuel : Nat) (resource_name : String)
    (visiting : List String) (quantity_multiplier : ℚ) :
    Except CostError (ℚ × Breakdown) :=
  match fuel with
  | 0 => .error .outOfFuel
  | fuel + 1 =>
    if resource_name ∈ visiting then
      .error (.circularReference resource_name)
    else
      match get_recipe db resource_name with
      | some nested_recipe =>
        match recipe_cost_aux db fuel nested_recipe.components
            (resource_name :: visiting) quantity_multiplier 0 [] with
        | .error e => .error e
        | .ok (cost_per_run, nested_breakdown) =>
          if nested_recipe.output_quantity ≤ 0 then
            .error (.invalidRecipe resource_name)
          else
            .ok (cost_per_run / nested_recipe.output_quantity,
              nested_breakdown.map
                (fun entry =>
                  (entry.1, entry.2.1 / nested_recipe.output_quantity,
                    entry.2.2)))
      | none =>
        match get_resource_unit_price db resource_name with
        | none => .error (.resourcePriceNotFound resource_name)
        | some price => .ok (price, [(resource_name, 1, price)])

/-- Embedding of the component loop of the inner closure `recipe_cost`:
fold over the component list, accumulating the run total and the merged
breakdown. -/
def recipe_cost_aux (db : Store) (fuel : Nat) (comps : List RecipeComponent)
    (visiting : List String) (quantity_multiplier : ℚ)
    (total : ℚ) (breakdown : Breakdown) :
    Except CostError (ℚ × Breakdown) :=
  match comps with
  | [] => .ok (total, breakdown)
  | component :: rest =>
    match resource_cost db fuel component.resource_name visiting
        quantity_multiplier with
    | .error e => .error e
    | .ok (component_cost, component_breakdown) =>
      recipe_cost_aux db fuel rest visiting quantity_multiplier
        (total + component.quantity * quantity_multiplier * component_cost)
        (mergeBreakdown breakdown component_breakdown
          (component.quantity * quantity_multiplier))

end

/-- Embedding of the inner closure `recipe_cost` applied to a recipe:
start the component loop with zero total and empty breakdown. -/
def recipe_cost (db : Store) (fuel : Nat) (recipe : Recipe)
    (visiting : List String) (quantity_multiplier : ℚ) :
    Except CostError (ℚ × Breakdown) :=
  recipe_cost_aux db fuel recipe.components visiting quantity_multiplier 0 []

/-- The efficiency resolution block of `calculate_recipe_cost`
(lines 1099-1111): explicit override, else stored per-ship-type value,
else the global default; paired with the source tag recorded in the
result. -/
def resolve_efficiency (db : Store) (base_recipe : Recipe)
    (efficiency : Option ℚ) : ℚ × String :=
  match efficiency with
  | some e => (e, "custom")
  | none =>
    match base_recipe.ship_type with
    | some ship_type =>
      match get_ship_type_efficiency db ship_type with
      | some type_efficiency => (type_efficiency, "ship_type")
      | none => (get_global_efficiency db, "global")
    | none => (get_global_efficiency db, "global")

/-- One row of the finalized components breakdown returned by
`calculate_recipe_cost`. -/
structure CostBreakdownEntry where
  resource_name : String
  quantity : ℚ
  unit_cost : ℚ
  total_cost : ℚ
deriving Repr, DecidableEq

/-- Finalization of an aggregated breakdown: sort by resource name and
recompute `total_cost` as `unit_price * quantity` from the merged
quantity, exactly as the list comprehensions at the end of
`calculate_recipe_cost` do. -/
def finalizeBreakdown (breakdown : Breakdown) : List CostBreakdownEntry :=
  (breakdown.mergeSort (fun a b => stringLE a.1 b.1)).map
    (fun entry => ⟨entry.1, entry.2.1, entry.2.2, entry.2.2 * entry.2.1⟩)

/-- The result dictionary returned by `calculate_recipe_cost`. -/
structure CostResult where
  efficiency : ℚ
  run_cost : ℚ
  unit_cost : ℚ
  output_quantity : ℚ
  components : List CostBreakdownEntry
  ship_type : Option String
  efficiency_source : String
  blueprint_cost : Option ℚ
  creation_cost : Option ℚ
  blueprint_creation_cost : Option ℚ
  total_with_additions : ℚ
  unit_cost_with_additions : ℚ
  blueprint_components : List CostBreakdownEntry
  blueprint_components_cost : ℚ
deriving Repr, DecidableEq

/-- Fuel passed to the walk by the top-level entry: one more than the
number of recipe rows.  Each recursive descent pushes a distinct stored
recipe name onto `visiting`, so no run admitted by the cycle guard can
descend deeper than the number of recipes. -/
def costFuel (db : Store) : Nat :=
  db.recipes.length + 1

/-- Embedding of `Database.calculate_recipe_cost`: the top-level entry of
the engine.  Mirrors the Python control flow: recipe lookup, efficiency
resolution and positivity check, the main walk seeded with the target
name, the unguarded division by `output_quantity` (raising
`decimal.DivisionByZero` when it is zero), the one-off blueprint
component walk with multiplier 1, the optional one-off cost additions,
and the finalized sorted breakdowns. -/
def calculate_recipe_cost (db : Store) (recipe_name : String)
    (efficiency : Option ℚ) : Except CostError CostResult :=
  match get_recipe db recipe_name with
  | none => .error (.recipeNotFound recipe_name)
  | some base_recipe =>
    match resolve_efficiency db base_recipe efficiency with
    | (eff, efficiency_source) =>
      if eff ≤ 0 then .error .invalidEfficiency
      else
        match recipe_cost_aux db (costFuel db) base_recipe.components
            [recipe_name] (eff / 100) 0 [] with
        | .error e => .error e
        | .ok (total_run_cost, aggregated_breakdown) =>
          if base_recipe.output_quantity = 0 then
            .error
              (if total_run_cost = 0 then .decimalInvalidOperation
               else .decimalDivisionByZero)
          else
            match
              (if base_recipe.blueprint_components.isEmpty then
                .ok (0, [])
              else
                recipe_cost_aux db (costFuel db)
                  base_recipe.blueprint_components [recipe_name] 1 0 []) with
            | .error e => .error e
            | .ok (blueprint_components_cost, blueprint_aggregated_breakdown) =>
              .ok
                { efficiency := eff
                  run_cost := total_run_cost
                  unit_cost := total_run_cost / base_recipe.output_quantity
                  output_quantity := base_recipe.output_quantity
                  components := finalizeBreakdown aggregated_breakdown
                  ship_type := base_recipe.ship_type
                  efficiency_source := efficiency_source
                  blueprint_cost := base_recipe.blueprint_cost
                  creation_cost := base_recipe.creation_cost
                  blueprint_creation_cost := base_recipe.blueprint_creation_cost
                  total_with_additions :=
                    total_run_cost + blueprint_components_cost +
                      base_recipe.blueprint_cost.getD 0 +
                      base_recipe.creation_cost.getD 0 +
                      base_recipe.blueprint_creation_cost.getD 0
                  unit_cost_with_additions :=
                    if 0 < base_recipe.output_quantity then
                      (total_run_cost + blueprint_components_cost +
                        base_recipe.blueprint_cost.getD 0 +
                        base_recipe.creation_cost.getD 0 +
                        base_recipe.blueprint_creation_cost.getD 0) /
                          base_recipe.output_quantity
                    else
                      total_run_cost + blueprint_components_cost +
                        base_recipe.blueprint_cost.getD 0 +
                        base_recipe.creation_cost.getD 0 +
                        base_recipe.blueprint_creation_cost.getD 0
                  blueprint_components :=
                    finalizeBreakdown blueprint_aggregated_breakdown
                  blueprint_components_cost := blueprint_components_cost }

mutual

/-- State-faithful variant of `resource_cost` that returns, next to the
result, the content of the shared mutable `visiting` set at the moment
the call returns.  It mirrors the Python mutation order exactly:
`visiting.add(resource_name)` before the nested walk, and
`visiting.remove(resource_name)` only on the line after a normal return
of the nested walk, so a propagating exception skips the removal. -/
def resource_costS (db : Store) (fuel : Nat) (resource_name : String)
    (visiting : List String) (quantity_multiplier : ℚ) :
    Except CostError (ℚ × Breakdown) × List String :=
  match fuel with
  | 0 => (.error .outOfFuel, visiting)
  | fuel + 1 =>
    if resource_name ∈ visiting then
      (.error (.circularReference resource_name), visiting)
    else
      match get_recipe db resource_name with
      | some nested_recipe =>
        match recipe_cost_auxS db fuel nested_recipe.components
            (resource_name :: visiting) quantity_multiplier 0 [] with
        | (.error e, visiting') => (.error e, visiting')
        | (.ok (cost_per_run, nested_breakdown), visiting') =>
          let visiting'' := visiting'.erase resource_name
          if nested_recipe.output_quantity ≤ 0 then
            (.error (.invalidRecipe resource_name), visiting'')
          else
            (.ok (cost_per_run / nested_recipe.output_quantity,
              nested_breakdown.map
                (fun entry =>
                  (entry.1, entry.2.1 / nested_recipe.output_quantity,
                    entry.2.2))), visiting'')
      | none =>
        match get_resource_unit_price db resource_name with
        | none => (.error (.resourcePriceNotFound resource_name), visiting)
        | some price => (.ok (price, [(resource_name, 1, price)]), visiting)

/-- State-faithful variant of the component loop, threading the shared
`visiting` set through the successive `resource_cost` calls. -/
def recipe_cost_auxS (db : Store) (fuel : Nat) (comps : List RecipeComponent)
    (visiting : List String) (quantity_multiplier : ℚ)
    (total : ℚ) (breakdown : Breakdown) :
    Except CostError (ℚ × Breakdown) × List String :=
  match comps with
  | [] => (.ok (total, breakdown), visiting)
  | component :: rest =>
    match resource_costS db fuel component.resource_name visiting
        quantity_multiplier with
    | (.error e, visiting') => (.error e, visiting')
    | (.ok (component_cost, component_breakdown), visiting') =>
      recipe_cost_auxS db fuel rest visiting' quantity_multiplier
        (total + component.quantity * quantity_multiplier * component_cost)
        (mergeBreakdown breakdown component_breakdown
          (component.quantity * quantity_multiplier))

end

/-- Upsert into the `resources` table (`INSERT ... ON CONFLICT(name) DO
UPDATE SET unit_price = excluded.unit_price`). -/
def upsertPrice (prices : List (String × ℚ)) (name : String) (price : ℚ) :
    List (String × ℚ) :=
  if prices.any (fun p => p.1 == name) then
    prices.map (fun p => if p.1 == name then (p.1, price) else p)
  else
    prices ++ [(name, price)]

/-- The ship type normalization of `add_recipe`:
`(ship_type or "").strip() or None`. -/
def normalise_ship_type (ship_type : Option String) : Option String :=
  match ship_type with
  | none => none
  | some s => if pyStrip s = "" then none else some (pyStrip s)

/-- Embedding of `Database.add_recipe`: insert or replace the recipe row
(a replace keeps the stored one-off cost columns and blueprint
components, a fresh insert leaves them empty), rewrite its component
rows, and write each authored component price through to the `resources`
table.  No validation of `output_quantity` is performed. -/
def add_recipe (db : Store) (name : String) (output_quantity : ℚ)
    (components : List AuthoredComponent) (is_temporary : Bool)
    (ship_type : Option String) : Store :=
  let stored := components.map (fun c => RecipeComponent.mk c.resource_name c.quantity)
  let recipes :=
    match db.recipes.find? (fun r => r.name == name) with
    | some _ =>
      db.recipes.map
        (fun r =>
          if r.name == name then
            { r with
              output_quantity := output_quantity
              is_temporary := is_temporary
              ship_type := normalise_ship_type ship_type
              components := stored }
          else r)
    | none =>
      db.recipes ++
        [{ name := name
           output_quantity := output_quantity
           is_temporary := is_temporary
           ship_type := normalise_ship_type ship_type
           blueprint_cost := none
           creation_cost := none
           blueprint_creation_cost := none
           components := stored
           blueprint_components := [] }]
  { db with
    recipes := recipes
    resource_prices :=
      components.foldl
        (fun ps c => upsertPrice ps c.resource_name c.unit_price)
        db.resource_prices }

/-- The store of Scenario A of the spec: `Widget` (output 1) needs 2
`Bolt` and 1 `Gadget`; `Gadget` (output 2) needs 4 `Bolt`; `Bolt` is a
terminal resource priced 3; no stored efficiencies (global defaults to
100). -/
def scenarioA : Store :=
  { recipes :=
      [ ⟨"Widget", 1, false, none, none, none, none,
          [⟨"Bolt", 2⟩, ⟨"Gadget", 1⟩], []⟩,
        ⟨"Gadget", 2, false, none, none, none, none, [⟨"Bolt", 4⟩], []⟩ ]
    resource_prices := [("Bolt", 3)]
    ship_type_efficiencies := []
    global_efficiency := none }

/-- Two mutually referencing recipes `a` and `b`, with an arbitrary list
of priced terminal sibling components appearing in the BOM of `a`
alongside the cycle edge. -/
def cycleStore (a b : String) (sibs : List (String × ℚ)) : Store :=
  { recipes :=
      [ ⟨a, 1, false, none, none, none, none,
          sibs.map (fun s => ⟨s.1, 1⟩) ++ [⟨b, 1⟩], []⟩,
        ⟨b, 1, false, none, none, none, none, [⟨a, 1⟩], []⟩ ]
    resource_prices := sibs
    ship_type_efficiencies := []
    global_efficiency := none }

/-- A single recipe whose BOM references itself. -/
def selfRefStore (a : String) : Store :=
  { recipes := [⟨a, 1, false, none, none, none, none, [⟨a, 1⟩], []⟩]
    resource_prices := []
    ship_type_efficiencies := []
    global_efficiency := none }

/-- A three-level chain of recipes ending in an unpriced terminal:
`a` needs `b`, `b` needs `c`, `c` needs the terminal `x`, and no
resource price is stored at all. -/
def chainStore (a b c x : String) : Store :=
  { recipes :=
      [ ⟨a, 1, false, none, none, none, none, [⟨b, 1⟩], []⟩,
        ⟨b, 1, false, none, none, none, none, [⟨c, 1⟩], []⟩,
        ⟨c, 1, false, none, none, none, none, [⟨x, 1⟩], []⟩ ]
    resource_prices := []
    ship_type_efficiencies := []
    global_efficiency := none }

/-- A diamond-shaped BOM: `Top` needs `L` and `R`, both of which need
the shared sub-recipe `S`, which needs the priced terminal `Bolt`.  The
recipe `S` appears in two independent, non-overlapping branches. -/
def diamondStore : Store :=
  { recipes :=
      [ ⟨"Top", 1, false, none, none, none, none, [⟨"L", 1⟩, ⟨"R", 1⟩], []⟩,
        ⟨"L", 1, false, none, none, none, none, [⟨"S", 1⟩], []⟩,
        ⟨"R", 1, false, none, none, none, none, [⟨"S", 1⟩], []⟩,
        ⟨"S", 1, false, none, none, none, none, [⟨"Bolt", 1⟩], []⟩ ]
    resource_prices := [("Bolt", 1)]
    ship_type_efficiencies := []
    global_efficiency := none }

/-- A recipe `A` whose component `B` is a recipe whose only component is
the unpriced terminal `X`: descending into `B` always fails. -/
def missingPriceStore : Store :=
  { recipes :=
      [ ⟨"A", 1, false, none, none, none, none, [⟨"B", 1⟩], []⟩,
        ⟨"B", 1, false, none, none, none, none, [⟨"X", 1⟩], []⟩ ]
    resource_prices := []
    ship_type_efficiencies := []
    global_efficiency := none }

/-- A parent recipe consuming one unit of a sub-recipe `Sub` with output
quantity 5 whose run cost is 100 (100 units of a terminal priced 1). -/
def subUnitStore : Store :=
  { recipes :=
      [ ⟨"Top", 1, false, none, none, none, none, [⟨"Sub", 1⟩], []⟩,
        ⟨"Sub", 5, false, none, none, none, none, [⟨"Bolt", 100⟩], []⟩ ]
    resource_prices := [("Bolt", 1)]
    ship_type_efficiencies := []
    global_efficiency := none }

/-- The empty store. -/
def emptyStore : Store :=
  { recipes := []
    resource_prices := []
    ship_type_efficiencies := []
    global_efficiency := none }

/-- A store produced by `add_recipe` itself: a recipe authored with
`output_quantity = 0` and one component `Bolt` (quantity 2, advisory
price 3, written through to the resources table). -/
def zeroOutputStore : Store :=
  add_recipe emptyStore "Widget" 0 [⟨"Bolt", 2, 3⟩] false none

/-- A recipe carrying a ship type with a stored per-type efficiency:
`Corvette` (ship type `Frigate`, efficiency 80) needs one `Bolt`
priced 2. -/
def stStore : Store :=
  { recipes :=
      [ ⟨"Corvette", 1, false, some "Frigate", none, none, none,
          [⟨"Bolt", 1⟩], []⟩ ]
    resource_prices := [("Bolt", 2)]
    ship_type_efficiencies := [("Frigate", 80)]
    global_efficiency := none }

/-- Number of decimal digits of `n` (0 for 0), with enough fuel since a
number never has more digits than its own value. -/
def digitsLenAux : Nat → Nat → Nat
  | 0, _ => 0
  | _ + 1, 0 => 0
  | fuel + 1, n => 1 + digitsLenAux fuel (n / 10)

/-- Number of decimal digits of `n` (0 for 0). -/
def digitsLen (n : Nat) : Nat :=
  digitsLenAux n n

/-- Round a rational to `p` significant decimal digits with
`ROUND_HALF_EVEN`: the correct rounding of every arithmetic result
performed by Python's default decimal context (`prec = 28`, never
changed in the repository).  The decimal exponent of `|q| = n / d` is
recovered as `digitsLen (n * 10 ^ L / d) - 1 - L` for `L` the digit
count of `d`; the value is then scaled into `[10 ^ (p-1), 10 ^ p)`,
rounded half-to-even on the integer part, and scaled back. -/
def sigRound (p : Nat) (q : ℚ) : ℚ :=
  if q = 0 then 0
  else
    let n := q.num.natAbs
    let d := q.den
    let L := digitsLen d
    let digits := digitsLen (n * 10 ^ L / d)
    let up := p + L - digits
    let down := digits - (p + L)
    let a := n * 10 ^ up
    let b := d * 10 ^ down
    let qt := a / b
    let r := a % b
    let rounded :=
      if 2 * r < b then qt
      else if b < 2 * r then qt + 1
      else if qt % 2 = 0 then qt else qt + 1
    let mag : ℚ := (rounded : ℚ) * 10 ^ down / 10 ^ up
    if q < 0 then -mag else mag

/-- Addition as Python's default decimal context performs it: the exact
sum rounded to 28 significant digits. -/
def decAdd (a b : ℚ) : ℚ :=
  sigRound 28 (a + b)

/-- Multiplication under the default decimal context. -/
def decMul (a b : ℚ) : ℚ :=
  sigRound 28 (a * b)

/-- Division under the default decimal context: this is where the
rounding is routinely visible (e.g. `1 / 3`). -/
def decDiv (a b : ℚ) : ℚ :=
  sigRound 28 (a / b)

/-- The dict-update step of the merge loop under context arithmetic:
quantities are accumulated with a context addition. -/
def addToBreakdownD : Breakdown → String → ℚ → ℚ → Breakdown
  | [], name, quantity, price => [(name, quantity, price)]
  | entry :: rest, name, quantity, price =>
    if entry.1 = name then (entry.1, decAdd entry.2.1 quantity, price) :: rest
    else entry :: addToBreakdownD rest name quantity price

/-- The merge loop under context arithmetic. -/
def mergeBreakdownD (breakdown : Breakdown) (component_breakdown : Breakdown)
    (component_quantity : ℚ) : Breakdown :=
  component_breakdown.foldl
    (fun acc entry =>
      addToBreakdownD acc entry.1 (decMul entry.2.1 component_quantity)
        entry.2.2)
    breakdown

mutual

/-- The walker under the program's actual decimal-context arithmetic:
identical control flow to `resource_cost`, with every addition,
multiplication and division rounded to 28 significant digits as Python's
default decimal context does. -/
def resource_costD (db : Store) (fuel : Nat) (resource_name : String)
    (visiting : List String) (quantity_multiplier : ℚ) :
    Except CostError (ℚ × Breakdown) :=
  match fuel with
  | 0 => .error .outOfFuel
  | fuel + 1 =>
    if resource_name ∈ visiting then
      .error (.circularReference resource_name)
    else
      match get_recipe db resource_name with
      | some nested_recipe =>
        match recipe_cost_auxD db fuel nested_recipe.components
            (resource_name :: visiting) quantity_multiplier 0 [] with
        | .error e => .error e
        | .ok (cost_per_run, nested_breakdown) =>
          if nested_recipe.output_quantity ≤ 0 then
            .error (.invalidRecipe resource_name)
          else
            .ok (decDiv cost_per_run nested_recipe.output_quantity,
              nested_breakdown.map
                (fun entry =>
                  (entry.1,
                    decDiv entry.2.1 nested_recipe.output_quantity,
                    entry.2.2)))
      | none =>
        match get_resource_unit_price db resource_name with
        | none => .error (.resourcePriceNotFound resource_name)
        | some price => .ok (price, [(resource_name, 1, price)])

/-- The component loop under context arithmetic. -/
def recipe_cost_auxD (db : Store) (fuel : Nat)
    (comps : List RecipeComponent) (visiting : List String)
    (quantity_multiplier : ℚ) (total : ℚ) (breakdown : Breakdown) :
    Except CostError (ℚ × Breakdown) :=
  match comps with
  | [] => .ok (total, breakdown)
  | component :: rest =>
    match resource_costD db fuel component.resource_name visiting
        quantity_multiplier with
    | .error e => .error e
    | .ok (component_cost, component_breakdown) =>
      recipe_cost_auxD db fuel rest visiting quantity_multiplier
        (decAdd total
          (decMul (decMul component.quantity quantity_multiplier)
            component_cost))
        (mergeBreakdownD breakdown component_breakdown
          (decMul component.quantity quantity_multiplier))

end

/-- Adding an optional one-off cost under context arithmetic, as the
conditional `+=` lines of `calculate_recipe_cost` do. -/
def addOptD (acc : ℚ) (cost : Option ℚ) : ℚ :=
  match cost with
  | none => acc
  | some v => decAdd acc v

/-- Finalization under context arithmetic: `total_cost` recomputed as a
context multiplication `unit_price * quantity`. -/
def finalizeBreakdownD (breakdown : Breakdown) : List CostBreakdownEntry :=
  (breakdown.mergeSort (fun a b => stringLE a.1 b.1)).map
    (fun entry => ⟨entry.1, entry.2.1, entry.2.2,
      decMul entry.2.2 entry.2.1⟩)

/-- Summation of the `total_cost` column as Python sums decimals: a fold
of context additions. -/
def sumTotalD (rows : List CostBreakdownEntry) : ℚ :=
  rows.foldl (fun acc row => decAdd acc row.total_cost) 0

/-- The top-level entry under the program's actual decimal-context
arithmetic: identical control flow to `calculate_recipe_cost`, with
every operation result rounded to 28 significant digits. -/
def calculate_recipe_costD (db : Store) (recipe_name : String)
    (efficiency : Option ℚ) : Except CostError CostResult :=
  match get_recipe db recipe_name with
  | none => .error (.recipeNotFound recipe_name)
  | some base_recipe =>
    match resolve_efficiency db base_recipe efficiency with
    | (eff, efficiency_source) =>
      if eff ≤ 0 then .error .invalidEfficiency
      else
        match recipe_cost_auxD db (costFuel db) base_recipe.components
            [recipe_name] (decDiv eff 100) 0 [] with
        | .error e => .error e
        | .ok (total_run_cost, aggregated_breakdown) =>
          if base_recipe.output_quantity = 0 then
            .error
              (if total_run_cost = 0 then .decimalInvalidOperation
               else .decimalDivisionByZero)
          else
            match
              (if base_recipe.blueprint_components.isEmpty then
                .ok (0, [])
              else
                recipe_cost_auxD db (costFuel db)
                  base_recipe.blueprint_components [recipe_name] 1 0 []) with
            | .error e => .error e
            | .ok (blueprint_components_cost, blueprint_aggregated_breakdown) =>
              .ok
                { efficiency := eff
                  run_cost := total_run_cost
                  unit_cost :=
                    decDiv total_run_cost base_recipe.output_quantity
                  output_quantity := base_recipe.output_quantity
                  components := finalizeBreakdownD aggregated_breakdown
                  ship_type := base_recipe.ship_type
                  efficiency_source := efficiency_source
                  blueprint_cost := base_recipe.blueprint_cost
                  creation_cost := base_recipe.creation_cost
                  blueprint_creation_cost := base_recipe.blueprint_creation_cost
                  total_with_additions :=
                    addOptD (addOptD (addOptD
                      (decAdd total_run_cost blueprint_components_cost)
                      base_recipe.blueprint_cost)
                      base_recipe.creation_cost)
                      base_recipe.blueprint_creation_cost
                  unit_cost_with_additions :=
                    if 0 < base_recipe.output_quantity then
                      decDiv
                        (addOptD (addOptD (addOptD
                          (decAdd total_run_cost blueprint_components_cost)
                          base_recipe.blueprint_cost)
                          base_recipe.creation_cost)
                          base_recipe.blueprint_creation_cost)
                        base_recipe.output_quantity
                    else
                      addOptD (addOptD (addOptD
                        (decAdd total_run_cost blueprint_components_cost)
                        base_recipe.blueprint_cost)
                        base_recipe.creation_cost)
                        base_recipe.blueprint_creation_cost
                  blueprint_components :=
                    finalizeBreakdownD blueprint_aggregated_breakdown
                  blueprint_components_cost := blueprint_components_cost }

/-- The store of the rounding-drift scenario: `P` (output 1) needs one
unit of `S` (output 3), which needs one `A` (price 1) and one `B`
(price 2).  The unit normalization divides by 3, which is inexact in
28-digit decimal arithmetic. -/
def driftStore : Store :=
  { recipes :=
      [ ⟨"P", 1, false, none, none, none, none, [⟨"S", 1⟩], []⟩,
        ⟨"S", 3, false, none, none, none, none,
          [⟨"A", 1⟩, ⟨"B", 1⟩], []⟩ ]
    resource_prices := [("A", 1), ("B", 2)]
    ship_type_efficiencies := []
    global_efficiency := none }

section Theorems

/-- Unfolding lemma: with no fuel the walk reports fuel exhaustion. -/
theorem resource_cost_zero (db : Store) (n : String) (v : List String)
    (m : ℚ) : resource_cost db 0 n v m = .error .outOfFuel := by
  rw [resource_cost]

/-- Unfolding lemma: a name already being expanded trips the cycle
guard. -/
theorem resource_cost_mem (db : Store) (fuel : Nat) (n : String)
    (v : List String) (m : ℚ) (h : n ∈ v) :
    resource_cost db (fuel + 1) n v m = .error (.circularReference n) := by
  rw [resource_cost]
  simp [h]

/-- Unfolding lemma: a priced terminal resource resolves to its stored
price and a singleton breakdown. -/
theorem resource_cost_terminal (db : Store) (fuel : Nat) (n : String)
    (v : List String) (m p : ℚ) (h1 : n ∉ v) (h2 : get_recipe db n = none)
    (h3 : get_resource_unit_price db n = some p) :
    resource_cost db (fuel + 1) n v m = .ok (p, [(n, 1, p)]) := by
  rw [resource_cost]
  simp [h1, h2, h3]

/-- Unfolding lemma: an unpriced terminal resource fails with the
resource-price-not-found error naming it. -/
theorem resource_cost_missing (db : Store) (fuel : Nat) (n : String)
    (v : List String) (m : ℚ) (h1 : n ∉ v) (h2 : get_recipe db n = none)
    (h3 : get_resource_unit_price db n = none) :
    resource_cost db (fuel + 1) n v m =
      .error (.resourcePriceNotFound n) := by
  rw [resource_cost]
  simp [h1, h2, h3]

/-- Unfolding lemma: a nested recipe is expanded with the name pushed
onto the visiting set, then unit-normalized by its output quantity. -/
theorem resource_cost_recipe (db : Store) (fuel : Nat) (n : String)
    (v : List String) (m : ℚ) (r : Recipe) (h1 : n ∉ v)
    (h2 : get_recipe db n = some r) :
    resource_cost db (fuel + 1) n v m =
      match recipe_cost_aux db fuel r.components (n :: v) m 0 [] with
      | .error e => .error e
      | .ok (cost_per_run, nested_breakdown) =>
        if r.output_quantity ≤ 0 then .error (.invalidRecipe n)
        else
          .ok (cost_per_run / r.output_quantity,
            nested_breakdown.map
              (fun entry =>
                (entry.1, entry.2.1 / r.output_quantity, entry.2.2))) := by
  rw [resource_cost]
  simp [h1, h2]

/-- Unfolding lemma: the empty component list returns the
accumulators. -/
theorem recipe_cost_aux_nil (db : Store) (fuel : Nat) (v : List String)
    (m t : ℚ) (bd : Breakdown) :
    recipe_cost_aux db fuel [] v m t bd = .ok (t, bd) := by
  rw [recipe_cost_aux]

/-- Unfolding lemma: a failing component aborts the loop with its
error. -/
theorem recipe_cost_aux_cons_error (db : Store) (fuel : Nat)
    (c : RecipeComponent) (rest : List RecipeComponent) (v : List String)
    (m t : ℚ) (bd : Breakdown) (e : CostError)
    (h : resource_cost db fuel c.resource_name v m = .error e) :
    recipe_cost_aux db fuel (c :: rest) v m t bd = .error e := by
  rw [recipe_cost_aux]
  simp [h]

/-- Unfolding lemma: a successfully resolved component updates the two
accumulators and the loop continues. -/
theorem recipe_cost_aux_cons_ok (db : Store) (fuel : Nat)
    (c : RecipeComponent) (rest : List RecipeComponent) (v : List String)
    (m t cc : ℚ) (bd cbd : Breakdown)
    (h : resource_cost db fuel c.resource_name v m = .ok (cc, cbd)) :
    recipe_cost_aux db fuel (c :: rest) v m t bd =
      recipe_cost_aux db fuel rest v m (t + c.quantity * m * cc)
        (mergeBreakdown bd cbd (c.quantity * m)) := by
  rw [recipe_cost_aux]
  simp [h]

/-- Unfolding lemma: an error inside a nested recipe propagates out of
its expansion unchanged. -/
theorem resource_cost_recipe_error (db : Store) (fuel : Nat) (n : String)
    (v : List String) (m : ℚ) (r : Recipe) (err : CostError) (h1 : n ∉ v)
    (h2 : get_recipe db n = some r)
    (h3 : recipe_cost_aux db fuel r.components (n :: v) m 0 [] =
      .error err) :
    resource_cost db (fuel + 1) n v m = .error err := by
  rw [resource_cost_recipe db fuel n v m r h1 h2, h3]

/-- Unfolding lemma: a successfully expanded nested recipe with positive
output quantity yields the unit-normalized cost and breakdown. -/
theorem resource_cost_recipe_ok (db : Store) (fuel : Nat) (n : String)
    (v : List String) (m : ℚ) (r : Recipe) (c : ℚ) (bd : Breakdown)
    (h1 : n ∉ v) (h2 : get_recipe db n = some r)
    (h3 : recipe_cost_aux db fuel r.components (n :: v) m 0 [] = .ok (c, bd))
    (h4 : ¬ r.output_quantity ≤ 0) :
    resource_cost db (fuel + 1) n v m =
      .ok (c / r.output_quantity,
        bd.map (fun entry =>
          (entry.1, entry.2.1 / r.output_quantity, entry.2.2))) := by
  rw [resource_cost_recipe db fuel n v m r h1 h2, h3]
  simp [h4]

/-- Unfolding lemma: a successfully expanded nested recipe with
non-positive output quantity fails with the invalid-recipe error. -/
theorem resource_cost_recipe_invalid (db : Store) (fuel : Nat) (n : String)
    (v : List String) (m : ℚ) (r : Recipe) (c : ℚ) (bd : Breakdown)
    (h1 : n ∉ v) (h2 : get_recipe db n = some r)
    (h3 : recipe_cost_aux db fuel r.components (n :: v) m 0 [] = .ok (c, bd))
    (h4 : r.output_quantity ≤ 0) :
    resource_cost db (fuel + 1) n v m = .error (.invalidRecipe n) := by
  rw [resource_cost_recipe db fuel n v m r h1 h2, h3]
  simp [h4]

/-- Assembly lemma for the top level: with the recipe found, the
efficiency resolved and positive, the main walk and the blueprint walk
successful, and a nonzero output quantity, `calculate_recipe_cost`
returns the result record assembled from those pieces. -/
theorem calculate_recipe_cost_ok (db : Store) (name : String) (r : Recipe)
    (ev : ℚ) (src : String) (eff : Option ℚ) (t : ℚ) (bd : Breakdown)
    (bc : ℚ) (bbd : Breakdown)
    (hr : get_recipe db name = some r)
    (hres : resolve_efficiency db r eff = (ev, src))
    (hev : ¬ ev ≤ 0)
    (haux : recipe_cost_aux db (costFuel db) r.components [name] (ev / 100)
      0 [] = .ok (t, bd))
    (hoq : ¬ r.output_quantity = 0)
    (hbp : (if r.blueprint_components.isEmpty then
        Except.ok ((0 : ℚ), ([] : Breakdown))
      else
        recipe_cost_aux db (costFuel db) r.blueprint_components [name]
          1 0 []) = .ok (bc, bbd)) :
    calculate_recipe_cost db name eff =
      .ok
        { efficiency := ev
          run_cost := t
          unit_cost := t / r.output_quantity
          output_quantity := r.output_quantity
          components := finalizeBreakdown bd
          ship_type := r.ship_type
          efficiency_source := src
          blueprint_cost := r.blueprint_cost
          creation_cost := r.creation_cost
          blueprint_creation_cost := r.blueprint_creation_cost
          total_with_additions :=
            t + bc + r.blueprint_cost.getD 0 + r.creation_cost.getD 0 +
              r.blueprint_creation_cost.getD 0
          unit_cost_with_additions :=
            if 0 < r.output_quantity then
              (t + bc + r.blueprint_cost.getD 0 + r.creation_cost.getD 0 +
                r.blueprint_creation_cost.getD 0) / r.output_quantity
            else
              t + bc + r.blueprint_cost.getD 0 + r.creation_cost.getD 0 +
                r.blueprint_creation_cost.getD 0
          blueprint_components := finalizeBreakdown bbd
          blueprint_components_cost := bc } := by
  rw [calculate_recipe_cost, hr]
  simp only [hres, if_neg hev, haux, if_neg hoq, hbp]

/-- Assembly lemma for the top level, division-by-zero case: with a
successful walk but a zero output quantity, the unguarded division
raises the decimal division-by-zero signal. -/
theorem calculate_recipe_cost_divzero (db : Store) (name : String)
    (r : Recipe) (ev : ℚ) (src : String) (eff : Option ℚ) (t : ℚ)
    (bd : Breakdown)
    (hr : get_recipe db name = some r)
    (hres : resolve_efficiency db r eff = (ev, src))
    (hev : ¬ ev ≤ 0)
    (haux : recipe_cost_aux db (costFuel db) r.components [name] (ev / 100)
      0 [] = .ok (t, bd))
    (hoq : r.output_quantity = 0)
    (ht : ¬ t = 0) :
    calculate_recipe_cost db name eff = .error .decimalDivisionByZero := by
  rw [calculate_recipe_cost, hr]
  simp only [hres, if_neg hev, haux, if_pos hoq, if_neg ht]

/-- Assembly lemma for the context-arithmetic top level, success case:
the rounded analogue of the exact assembly lemma, composing the results
of the rounded component walk and blueprint walk into the full result
record of `calculate_recipe_costD`. -/
theorem calculate_recipe_costD_ok (db : Store) (name : String) (r : Recipe)
    (ev : ℚ) (src : String) (eff : Option ℚ) (t : ℚ) (bd : Breakdown)
    (bc : ℚ) (bbd : Breakdown)
    (hr : get_recipe db name = some r)
    (hres : resolve_efficiency db r eff = (ev, src))
    (hev : ¬ ev ≤ 0)
    (haux : recipe_cost_auxD db (costFuel db) r.components [name]
      (decDiv ev 100) 0 [] = .ok (t, bd))
    (hoq : ¬ r.output_quantity = 0)
    (hbp : (if r.blueprint_components.isEmpty then
        Except.ok ((0 : ℚ), ([] : Breakdown))
      else
        recipe_cost_auxD db (costFuel db) r.blueprint_components [name]
          1 0 []) = .ok (bc, bbd)) :
    calculate_recipe_costD db name eff =
      .ok
        { efficiency := ev
          run_cost := t
          unit_cost := decDiv t r.output_quantity
          output_quantity := r.output_quantity
          components := finalizeBreakdownD bd
          ship_type := r.ship_type
          efficiency_source := src
          blueprint_cost := r.blueprint_cost
          creation_cost := r.creation_cost
          blueprint_creation_cost := r.blueprint_creation_cost
          total_with_additions :=
            addOptD (addOptD (addOptD (decAdd t bc) r.blueprint_cost)
              r.creation_cost) r.blueprint_creation_cost
          unit_cost_with_additions :=
            if 0 < r.output_quantity then
              decDiv
                (addOptD (addOptD (addOptD (decAdd t bc) r.blueprint_cost)
                  r.creation_cost) r.blueprint_creation_cost)
                r.output_quantity
            else
              addOptD (addOptD (addOptD (decAdd t bc) r.blueprint_cost)
                r.creation_cost) r.blueprint_creation_cost
          blueprint_components := finalizeBreakdownD bbd
          blueprint_components_cost := bc } := by
  rw [calculate_recipe_costD, hr]
  simp only [hres, if_neg hev, haux, if_neg hoq, hbp]

/-- Claim C6: on the Scenario A store, `calculate_recipe_cost "Widget"`
returns run cost 12 and unit cost 12, with a breakdown whose single
`Bolt` row has merged quantity 4 (2 direct plus 4/2 via `Gadget`) and
total cost 12; the nested `Gadget` evaluation has run cost 12 and
contributes unit cost 6. -/
theorem C6_scenarioA :
    calculate_recipe_cost scenarioA "Widget" none =
      .ok ⟨100, 12, 12, 1, [⟨"Bolt", 4, 3, 12⟩], none, "global", none,
        none, none, 12, 12, [], 0⟩ ∧
    recipe_cost_aux scenarioA 2 [⟨"Bolt", 4⟩] ["Gadget", "Widget"] 1 0 [] =
      .ok (12, [("Bolt", 4, 3)]) ∧
    resource_cost scenarioA 3 "Gadget" ["Widget"] 1 =
      .ok (6, [("Bolt", 2, 3)]) := by
  have hauxG : recipe_cost_aux scenarioA 2 [⟨"Bolt", 4⟩]
      ["Gadget", "Widget"] 1 0 [] = .ok (12, [("Bolt", 4, 3)]) := by
    simp [recipe_cost_aux, resource_cost, get_recipe,
      get_resource_unit_price, scenarioA, List.find?, mergeBreakdown,
      addToBreakdown, List.mergeSort]
    norm_num [addToBreakdown]
  have hrG : resource_cost scenarioA 3 "Gadget" ["Widget"] 1 =
      .ok (6, [("Bolt", 2, 3)]) := by
    simp [resource_cost, recipe_cost_aux, get_recipe,
      get_resource_unit_price, scenarioA, List.find?, mergeBreakdown,
      addToBreakdown, List.mergeSort]
    norm_num [addToBreakdown]
  have hauxW : recipe_cost_aux scenarioA 3 [⟨"Bolt", 2⟩, ⟨"Gadget", 1⟩]
      ["Widget"] 1 0 [] = .ok (12, [("Bolt", 4, 3)]) := by
    simp [recipe_cost_aux, resource_cost, get_recipe,
      get_resource_unit_price, scenarioA, List.find?, mergeBreakdown,
      addToBreakdown, List.mergeSort]
    norm_num [addToBreakdown]
  refine ⟨?_, hauxG, hrG⟩
  have h := calculate_recipe_cost_ok scenarioA "Widget"
    ⟨"Widget", 1, false, none, none, none, none,
      [⟨"Bolt", 2⟩, ⟨"Gadget", 1⟩], []⟩
    100 "global" none 12 [("Bolt", 4, 3)] 0 []
    (by simp [get_recipe, scenarioA, List.find?, List.mergeSort,
      componentLE, stringLE, charListLE])
    (by simp [resolve_efficiency, get_global_efficiency, scenarioA])
    (by norm_num)
    (by
      rw [show ((100 : ℚ) / 100) = 1 from by norm_num]
      exact hauxW)
    (by norm_num) rfl
  rw [h]
  simp [finalizeBreakdown, List.mergeSort, stringLE, charListLE]
  norm_num

/-- Sum of `quantity * stored price` over a list of terminal components:
the nominal (multiplier 1) run cost of a recipe all of whose components
are priced terminals. -/
def terminalRunSum (db : Store) : List RecipeComponent → ℚ
  | [] => 0
  | c :: rest =>
    c.quantity * (get_resource_unit_price db c.resource_name).getD 0 +
      terminalRunSum db rest

/-- On a component list made only of priced terminal resources the walk
succeeds and its total is the accumulator plus the multiplier times the
nominal sum: at depth one the multiplier acts linearly. -/
theorem recipe_cost_aux_terminal (db : Store) (fuel : Nat)
    (comps : List RecipeComponent) (visiting : List String) (m : ℚ)
    (hterm : ∀ c ∈ comps, get_recipe db c.resource_name = none ∧
      (get_resource_unit_price db c.resource_name).isSome)
    (hvis : ∀ v ∈ visiting, (get_recipe db v).isSome) :
    ∀ t0 bd0, ∃ bd, recipe_cost_aux db (fuel + 1) comps visiting m t0 bd0 =
      .ok (t0 + m * terminalRunSum db comps, bd) := by
  induction comps with
  | nil =>
    intro t0 bd0
    refine ⟨bd0, ?_⟩
    rw [recipe_cost_aux_nil]
    simp [terminalRunSum]
  | cons c rest ih =>
    intro t0 bd0
    obtain ⟨hcr, hcp⟩ := hterm c (List.mem_cons_self c rest)
    obtain ⟨p, hp⟩ := Option.isSome_iff_exists.mp hcp
    have hnotvis : c.resource_name ∉ visiting := by
      intro hmem
      have hsome := hvis _ hmem
      rw [hcr] at hsome
      simp at hsome
    obtain ⟨bd, hbd⟩ :=
      ih (fun x hx => hterm x (List.mem_cons_of_mem c hx))
        (t0 + c.quantity * m * p)
        (mergeBreakdown bd0 [(c.resource_name, 1, p)] (c.quantity * m))
    refine ⟨bd, ?_⟩
    rw [recipe_cost_aux_cons_ok db (fuel + 1) c rest visiting m t0 p bd0
        [(c.resource_name, 1, p)]
        (resource_cost_terminal db fuel c.resource_name visiting m p
          hnotvis hcr hp),
      hbd]
    simp only [terminalRunSum, hp, Option.getD_some, Except.ok.injEq,
      Prod.mk.injEq, and_true]
    ring

/-- Claim C1, counterexample: on the Scenario A store the code does not
scale the run cost linearly in the efficiency.  At efficiency 100 the
`Widget` run cost is 12, but at efficiency 50 it is 9/2 = 4.5, not the
6 = 12 × 0.5 demanded by the claim (Scenario B), because the multiplier
is applied again at every nesting level, so the nested `Gadget`
contribution scales quadratically. -/
theorem C1_counterexample :
    (calculate_recipe_cost scenarioA "Widget" (some 100)).map
        CostResult.run_cost = .ok 12 ∧
    (calculate_recipe_cost scenarioA "Widget" (some 50)).map
        CostResult.run_cost = .ok (9 / 2) ∧
    (calculate_recipe_cost scenarioA "Widget" (some 50)).map
        CostResult.run_cost ≠ .ok (12 * (1 / 2)) := by
  have hauxW1 : recipe_cost_aux scenarioA 3 [⟨"Bolt", 2⟩, ⟨"Gadget", 1⟩]
      ["Widget"] 1 0 [] = .ok (12, [("Bolt", 4, 3)]) := by
    simp [recipe_cost_aux, resource_cost, get_recipe,
      get_resource_unit_price, scenarioA, List.find?, mergeBreakdown,
      addToBreakdown, List.mergeSort]
    norm_num [addToBreakdown]
  have hauxW2 : recipe_cost_aux scenarioA 3 [⟨"Bolt", 2⟩, ⟨"Gadget", 1⟩]
      ["Widget"] (1 / 2) 0 [] = .ok (9 / 2, [("Bolt", 3 / 2, 3)]) := by
    simp [recipe_cost_aux, resource_cost, get_recipe,
      get_resource_unit_price, scenarioA, List.find?, mergeBreakdown,
      addToBreakdown, List.mergeSort]
    norm_num [addToBreakdown]
  have h100 := calculate_recipe_cost_ok scenarioA "Widget"
    ⟨"Widget", 1, false, none, none, none, none,
      [⟨"Bolt", 2⟩, ⟨"Gadget", 1⟩], []⟩
    100 "custom" (some 100) 12 [("Bolt", 4, 3)] 0 []
    (by simp [get_recipe, scenarioA, List.find?, List.mergeSort,
      componentLE, stringLE, charListLE])
    (by simp [resolve_efficiency])
    (by norm_num)
    (by
      rw [show ((100 : ℚ) / 100) = 1 from by norm_num]
      exact hauxW1)
    (by norm_num) rfl
  have h50 := calculate_recipe_cost_ok scenarioA "Widget"
    ⟨"Widget", 1, false, none, none, none, none,
      [⟨"Bolt", 2⟩, ⟨"Gadget", 1⟩], []⟩
    50 "custom" (some 50) (9 / 2) [("Bolt", 3 / 2, 3)] 0 []
    (by simp [get_recipe, scenarioA, List.find?, List.mergeSort,
      componentLE, stringLE, charListLE])
    (by simp [resolve_efficiency])
    (by norm_num)
    (by
      rw [show ((50 : ℚ) / 100) = 1 / 2 from by norm_num]
      exact hauxW2)
    (by norm_num) rfl
  refine ⟨by rw [h100]; rfl, by rw [h50]; rfl, ?_⟩
  rw [h50]
  simp only [Except.map, Except.ok.injEq, ne_eq]
  norm_num

/-- Claim C1, amended: run cost is linear in the efficiency multiplier
for recipes whose components are all priced terminal resources (a
depth-one BOM): for such a recipe `calculate_recipe_cost` at efficiency
`e / 2` yields exactly half the run cost obtained at efficiency `e`.
For nested recipes the multiplier compounds once per recursion level, so
a depth-d contribution scales by (1/2)^d instead, as the counterexample
shows. -/
theorem C1_amended (db : Store) (name : String) (r : Recipe) (e : ℚ)
    (hr : get_recipe db name = some r)
    (hterm : ∀ c ∈ r.components, get_recipe db c.resource_name = none ∧
      (get_resource_unit_price db c.resource_name).isSome)
    (he : 0 < e)
    (hoq : r.output_quantity ≠ 0)
    (hbp : r.blueprint_components = []) :
    ∃ res res2,
      calculate_recipe_cost db name (some e) = .ok res ∧
      calculate_recipe_cost db name (some (e / 2)) = .ok res2 ∧
      res2.run_cost = res.run_cost * (1 / 2) := by
  have hvis : ∀ v ∈ [name], (get_recipe db v).isSome := by
    intro v hv
    rw [List.mem_singleton] at hv
    subst hv
    rw [hr]
    rfl
  have hfuel : costFuel db = db.recipes.length + 1 := rfl
  obtain ⟨bd1, hbd1⟩ := recipe_cost_aux_terminal db db.recipes.length
    r.components [name] (e / 100) hterm hvis 0 []
  obtain ⟨bd2, hbd2⟩ := recipe_cost_aux_terminal db db.recipes.length
    r.components [name] (e / 2 / 100) hterm hvis 0 []
  have he1 : ¬ e ≤ 0 := not_le.mpr he
  have he2 : ¬ e / 2 ≤ 0 := not_le.mpr (by positivity)
  have h1 : ∃ res, calculate_recipe_cost db name (some e) = .ok res ∧
      res.run_cost = 0 + e / 100 * terminalRunSum db r.components := by
    rw [calculate_recipe_cost, hr]
    simp only [resolve_efficiency, if_neg he1, hfuel, hbd1, if_neg hoq, hbp,
      List.isEmpty_nil, if_true]
    exact ⟨_, rfl, rfl⟩
  have h2 : ∃ res, calculate_recipe_cost db name (some (e / 2)) = .ok res ∧
      res.run_cost = 0 + e / 2 / 100 * terminalRunSum db r.components := by
    rw [calculate_recipe_cost, hr]
    simp only [resolve_efficiency, if_neg he2, hfuel, hbd2, if_neg hoq, hbp,
      List.isEmpty_nil, if_true]
    exact ⟨_, rfl, rfl⟩
  obtain ⟨res, hres, hrc⟩ := h1
  obtain ⟨res2, hres2, hrc2⟩ := h2
  refine ⟨res, res2, hres, hres2, ?_⟩
  rw [hrc, hrc2]
  ring

/-- Witness for the amended C1 at a concrete input: the depth-one recipe
`Sub` of `subUnitStore` (100 `Bolt` at price 1, output 5) at
efficiencies 100 and 50. -/
theorem C1_amended_witness :
    ∃ res res2,
      calculate_recipe_cost subUnitStore "Sub" (some 100) = .ok res ∧
      calculate_recipe_cost subUnitStore "Sub" (some (100 / 2)) = .ok res2 ∧
      res2.run_cost = res.run_cost * (1 / 2) := by
  refine C1_amended subUnitStore "Sub"
    ⟨"Sub", 5, false, none, none, none, none, [⟨"Bolt", 100⟩], []⟩ 100
    ?_ ?_ (by norm_num) (by norm_num) rfl
  · simp [get_recipe, subUnitStore, List.find?, List.mergeSort]
  · intro c hc
    simp [List.mergeSort] at hc
    subst hc
    simp [get_recipe, get_resource_unit_price, subUnitStore, List.find?]

/-- Claim C3 (amended): efficiency is resolved in strict priority order —
an explicit override always wins with source tag "custom"; otherwise a
stored per-category (ship type) efficiency is used with the code's
literal source tag "ship_type" — not the tag "category" the claim
names, which the program never produces; otherwise the stored global
efficiency with source tag "global", defaulting to 100 when never set.
Whenever the resolved value is non-positive the call fails with the
invalid-efficiency error (before any graph walking: the error is
produced whatever the component graph holds), and on success the result
record carries exactly the resolved value and tag. -/
theorem C3_efficiency_resolution (db : Store) (name : String) (r : Recipe)
    (hr : get_recipe db name = some r) :
    (∀ e, resolve_efficiency db r (some e) = (e, "custom")) ∧
    (∀ st te, r.ship_type = some st →
      get_ship_type_efficiency db st = some te →
      resolve_efficiency db r none = (te, "ship_type")) ∧
    (∀ st, r.ship_type = some st → get_ship_type_efficiency db st = none →
      resolve_efficiency db r none = (get_global_efficiency db, "global")) ∧
    (r.ship_type = none →
      resolve_efficiency db r none = (get_global_efficiency db, "global")) ∧
    (db.global_efficiency = none → get_global_efficiency db = 100) ∧
    (∀ eff, (resolve_efficiency db r eff).1 ≤ 0 →
      calculate_recipe_cost db name eff = .error .invalidEfficiency) ∧
    (∀ eff res, calculate_recipe_cost db name eff = .ok res →
      res.efficiency = (resolve_efficiency db r eff).1 ∧
      res.efficiency_source = (resolve_efficiency db r eff).2) := by
  refine ⟨?_, ?_, ?_, ?_, ?_, ?_, ?_⟩
  · intro e
    simp [resolve_efficiency]
  · intro st te h1 h2
    simp [resolve_efficiency, h1, h2]
  · intro st h1 h2
    simp [resolve_efficiency, h1, h2]
  · intro h1
    simp [resolve_efficiency, h1]
  · intro h1
    simp [get_global_efficiency, h1]
  · intro eff h
    rcases hres : resolve_efficiency db r eff with ⟨ev, src⟩
    rw [hres] at h
    have hev : ev ≤ 0 := h
    rw [calculate_recipe_cost, hr]
    simp only [hres]
    rw [if_pos hev]
  · intro eff res hok
    rcases hres : resolve_efficiency db r eff with ⟨ev, src⟩
    rw [calculate_recipe_cost, hr] at hok
    simp only [hres] at hok
    by_cases hev : ev ≤ 0
    · simp only [if_pos hev] at hok
      cases hok
    · simp only [if_neg hev] at hok
      cases haux : recipe_cost_aux db (costFuel db) r.components [name]
          (ev / 100) 0 [] with
      | error e =>
        rw [haux] at hok
        cases hok
      | ok v =>
        obtain ⟨t, bd⟩ := v
        rw [haux] at hok
        by_cases hoq : r.output_quantity = 0
        · simp only [if_pos hoq] at hok
          cases hok
        · simp only [if_neg hoq] at hok
          cases hbpx : (if r.blueprint_components.isEmpty then
              Except.ok ((0 : ℚ), ([] : Breakdown))
            else
              recipe_cost_aux db (costFuel db) r.blueprint_components
                [name] 1 0 []) with
          | error e2 =>
            rw [hbpx] at hok
            cases hok
          | ok w =>
            obtain ⟨bc, bbd⟩ := w
            rw [hbpx] at hok
            rw [Except.ok.injEq] at hok
            subst hok
            exact ⟨rfl, rfl⟩

/-- Witness for C3 at concrete inputs: on the Scenario A store an
explicit override of 77 resolves as ("custom"), and an explicit
non-positive override fails with the invalid-efficiency error. -/
theorem C3_witness :
    resolve_efficiency scenarioA
      ⟨"Widget", 1, false, none, none, none, none,
        [⟨"Bolt", 2⟩, ⟨"Gadget", 1⟩], []⟩ (some 77) = (77, "custom") ∧
    calculate_recipe_cost scenarioA "Widget" (some (-5)) =
      .error .invalidEfficiency := by
  have h := C3_efficiency_resolution scenarioA "Widget"
    ⟨"Widget", 1, false, none, none, none, none,
      [⟨"Bolt", 2⟩, ⟨"Gadget", 1⟩], []⟩
    (by simp [get_recipe, scenarioA, List.find?, List.mergeSort, List.merge,
      componentLE, stringLE, charListLE])
  refine ⟨h.1 77, h.2.2.2.2.2.1 (some (-5)) ?_⟩
  rw [resolve_efficiency]
  norm_num

/-- Counterexample to C3 as stated: on a store holding the recipe
`Corvette` of ship type `Frigate` with a stored per-type efficiency 80,
the per-category tier resolves with the literal source tag
"ship_type" — both in the resolution step and in the
`efficiency_source` field of the returned result — and that tag is not
the tag "category" the claim asserts. -/
theorem C3_counterexample :
    resolve_efficiency stStore
      ⟨"Corvette", 1, false, some "Frigate", none, none, none,
        [⟨"Bolt", 1⟩], []⟩ none = (80, "ship_type") ∧
    (calculate_recipe_cost stStore "Corvette" none).map
      CostResult.efficiency_source = .ok "ship_type" ∧
    ¬ ("ship_type" : String) = "category" := by
  have hps : pyStrip "Frigate" = "Frigate" := by decide
  have hres : resolve_efficiency stStore
      ⟨"Corvette", 1, false, some "Frigate", none, none, none,
        [⟨"Bolt", 1⟩], []⟩ none = (80, "ship_type") := by
    simp [resolve_efficiency, get_ship_type_efficiency, stStore,
      List.find?, hps]
  have hauxC : recipe_cost_aux stStore (costFuel stStore) [⟨"Bolt", 1⟩]
      ["Corvette"] ((80 : ℚ) / 100) 0 [] =
      .ok (8 / 5, [("Bolt", 4 / 5, 2)]) := by
    rw [show ((80 : ℚ) / 100) = 4 / 5 from by norm_num]
    simp [costFuel, stStore, recipe_cost_aux, resource_cost, get_recipe,
      get_resource_unit_price, List.find?, mergeBreakdown, addToBreakdown,
      List.mergeSort]
    norm_num
  have h := calculate_recipe_cost_ok stStore "Corvette"
    ⟨"Corvette", 1, false, some "Frigate", none, none, none,
      [⟨"Bolt", 1⟩], []⟩
    80 "ship_type" none (8 / 5) [("Bolt", 4 / 5, 2)] 0 []
    (by simp [get_recipe, stStore, List.find?, List.mergeSort])
    hres
    (by norm_num)
    hauxC
    (by norm_num)
    rfl
  refine ⟨hres, ?_, by decide⟩
  rw [h]
  rfl

/-- Claim C4: a component resolving to a sub-recipe is normalized to one
unit of the sub-recipe's output before merging upward: when the nested
walk returns run cost `c` and breakdown `bd`, the component contributes
unit cost `c / output_quantity` and the breakdown `bd` with every
quantity divided by `output_quantity`; when the sub-recipe's output
quantity is non-positive the invalid-recipe error is raised instead. -/
theorem C4_unit_normalization (db : Store) (fuel : Nat) (n : String)
    (v : List String) (m : ℚ) (r : Recipe) (c : ℚ) (bd : Breakdown)
    (h1 : n ∉ v) (h2 : get_recipe db n = some r)
    (h3 : recipe_cost_aux db fuel r.components (n :: v) m 0 [] =
      .ok (c, bd)) :
    (0 < r.output_quantity →
      resource_cost db (fuel + 1) n v m =
        .ok (c / r.output_quantity,
          bd.map (fun entry =>
            (entry.1, entry.2.1 / r.output_quantity, entry.2.2)))) ∧
    (r.output_quantity ≤ 0 →
      resource_cost db (fuel + 1) n v m = .error (.invalidRecipe n)) := by
  constructor
  · intro h
    exact resource_cost_recipe_ok db fuel n v m r c bd h1 h2 h3 (not_le.mpr h)
  · intro h
    exact resource_cost_recipe_invalid db fuel n v m r c bd h1 h2 h3 h

/-- Witness for C4 at the spec's concrete instance: the sub-recipe `Sub`
of `subUnitStore` has output quantity 5 and run cost 100, so it
contributes unit cost 20 and its breakdown quantity 100 becomes 20. -/
theorem C4_witness :
    resource_cost subUnitStore 2 "Sub" ["Top"] 1 =
      .ok (20, [("Bolt", 20, 1)]) := by
  have h := C4_unit_normalization subUnitStore 1 "Sub" ["Top"] 1
    ⟨"Sub", 5, false, none, none, none, none, [⟨"Bolt", 100⟩], []⟩
    100 [("Bolt", 100, 1)]
    (by simp)
    (by simp [get_recipe, subUnitStore, List.find?, List.mergeSort])
    (by
      simp [recipe_cost_aux, resource_cost, get_recipe,
        get_resource_unit_price, subUnitStore, List.find?, mergeBreakdown,
        addToBreakdown, List.mergeSort])
  have h2 := h.1 (by norm_num)
  rw [h2]
  norm_num

/-- On a component list each of whose entries either fails with the
fixed error `err` or succeeds, the loop fails with `err` as soon as at
least one failing entry is present: errors abort the walk with no cost
result. -/
theorem recipe_cost_aux_error_of_mem (db : Store) (fuel : Nat)
    (comps : List RecipeComponent) (v : List String) (m : ℚ)
    (err : CostError)
    (hall : ∀ c ∈ comps,
      resource_cost db fuel c.resource_name v m = .error err ∨
      ∃ cc cbd, resource_cost db fuel c.resource_name v m = .ok (cc, cbd))
    (hex : ∃ c ∈ comps,
      resource_cost db fuel c.resource_name v m = .error err) :
    ∀ t0 bd0, recipe_cost_aux db fuel comps v m t0 bd0 = .error err := by
  induction comps with
  | nil =>
    obtain ⟨c, hc, _⟩ := hex
    cases hc
  | cons c rest ih =>
    intro t0 bd0
    rcases hall c (List.mem_cons_self c rest) with hce | ⟨cc, cbd, hcok⟩
    · exact recipe_cost_aux_cons_error db fuel c rest v m t0 bd0 err hce
    · rw [recipe_cost_aux_cons_ok db fuel c rest v m t0 cc bd0 cbd hcok]
      apply ih (fun x hx => hall x (List.mem_cons_of_mem c hx))
      obtain ⟨w, hw, hwe⟩ := hex
      rcases List.mem_cons.mp hw with rfl | hwrest
      · rw [hcok] at hwe
        cases hwe
      · exact ⟨w, hwrest, hwe⟩

/-- Claim C2: two mutually referencing recipes always trip the cycle
guard, whatever the number of priced terminal sibling components in the
BOM next to the cycle edge, and the error names the recipe that closes
the loop (the pre-seeded starting name); a recipe that references itself
fails the same way because the starting name is pre-seeded into the
visiting set.  No cost result is returned. -/
theorem C2_circular_reference (a b : String) (sibs : List (String × ℚ))
    (e : ℚ) (hab : a ≠ b) (he : 0 < e)
    (hsibs : ∀ s ∈ sibs, s.1 ≠ a ∧ s.1 ≠ b) :
    calculate_recipe_cost (cycleStore a b sibs) a (some e) =
      .error (.circularReference a) ∧
    calculate_recipe_cost (selfRefStore a) a (some e) =
      .error (.circularReference a) := by
  have hba : b ≠ a := hab.symm
  constructor
  · have hab' : (a == b) = false := beq_eq_false_iff_ne.mpr hab
    have hgrA : get_recipe (cycleStore a b sibs) a =
        some ⟨a, 1, false, none, none, none, none,
          ((sibs.map (fun s : String × ℚ => RecipeComponent.mk s.1 1)) ++
            [RecipeComponent.mk b 1]).mergeSort componentLE, []⟩ := by
      simp [get_recipe, cycleStore, List.find?]
    have hgrB : get_recipe (cycleStore a b sibs) b =
        some ⟨b, 1, false, none, none, none, none, [⟨a, 1⟩], []⟩ := by
      simp [get_recipe, cycleStore, List.find?, hab', List.mergeSort]
    have hcycle : resource_cost (cycleStore a b sibs) 3 b [a] (e / 100) =
        .error (.circularReference a) := by
      refine resource_cost_recipe_error (cycleStore a b sibs) 2 b [a]
        (e / 100) ⟨b, 1, false, none, none, none, none, [⟨a, 1⟩], []⟩
        (.circularReference a) (by simp [hba]) hgrB ?_
      exact recipe_cost_aux_cons_error (cycleStore a b sibs) 2 ⟨a, 1⟩ []
        [b, a] (e / 100) 0 [] (.circularReference a)
        (resource_cost_mem (cycleStore a b sibs) 1 a [b, a] (e / 100)
          (by simp))
    have hsib : ∀ s ∈ sibs, ∃ q,
        get_resource_unit_price (cycleStore a b sibs) s.1 = some q := by
      intro s hs
      have hfind : (sibs.find? fun pr => pr.1 == s.1).isSome :=
        List.find?_isSome.mpr ⟨s, hs, by simp⟩
      obtain ⟨pr, hpr⟩ := Option.isSome_iff_exists.mp hfind
      exact ⟨pr.2, by simp [get_resource_unit_price, cycleStore, hpr]⟩
    have haux : ∀ t0 bd0,
        recipe_cost_aux (cycleStore a b sibs) 3
          (((sibs.map (fun s : String × ℚ => RecipeComponent.mk s.1 1)) ++
            [RecipeComponent.mk b 1]).mergeSort componentLE) [a] (e / 100) t0 bd0 =
          .error (.circularReference a) := by
      apply recipe_cost_aux_error_of_mem
      · intro c hc
        rw [List.mem_mergeSort, List.mem_append] at hc
        rcases hc with hcs | hcb
        · right
          obtain ⟨s, hs, rfl⟩ := List.mem_map.mp hcs
          obtain ⟨hsa, hsb⟩ := hsibs s hs
          obtain ⟨q, hq⟩ := hsib s hs
          have hsrec : get_recipe (cycleStore a b sibs) s.1 = none := by
            simp [get_recipe, cycleStore, List.find?,
              beq_eq_false_iff_ne.mpr hsa.symm, beq_eq_false_iff_ne.mpr hsb.symm]
          exact ⟨q, [(s.1, 1, q)],
            resource_cost_terminal (cycleStore a b sibs) 2 s.1 [a] (e / 100)
              q (by simp [hsa]) hsrec hq⟩
        · left
          rw [List.mem_singleton] at hcb
          subst hcb
          exact hcycle
      · refine ⟨⟨b, 1⟩, ?_, hcycle⟩
        rw [List.mem_mergeSort, List.mem_append]
        exact Or.inr (List.mem_singleton.mpr rfl)
    rw [calculate_recipe_cost, hgrA]
    simp only [resolve_efficiency]
    rw [if_neg he.not_le]
    have hfuel : costFuel (cycleStore a b sibs) = 3 := rfl
    simp only [hfuel, haux 0 []]
  · have hgr : get_recipe (selfRefStore a) a =
        some ⟨a, 1, false, none, none, none, none, [⟨a, 1⟩], []⟩ := by
      simp [get_recipe, selfRefStore, List.find?, List.mergeSort]
    have haux : recipe_cost_aux (selfRefStore a) 2 [⟨a, 1⟩] [a] (e / 100)
        0 [] = .error (.circularReference a) :=
      recipe_cost_aux_cons_error (selfRefStore a) 2 ⟨a, 1⟩ [] [a] (e / 100)
        0 [] (.circularReference a)
        (resource_cost_mem (selfRefStore a) 1 a [a] (e / 100) (by simp))
    rw [calculate_recipe_cost, hgr]
    simp only [resolve_efficiency]
    rw [if_neg he.not_le]
    have hfuel : costFuel (selfRefStore a) = 2 := rfl
    simp only [hfuel, haux]

/-- Witness for C2 at concrete inputs: the Scenario C pair
`Widget`/`Gadget` with one priced sibling `Bolt`, and the
self-referencing recipe `Widget`. -/
theorem C2_witness :
    calculate_recipe_cost (cycleStore "Widget" "Gadget" [("Bolt", 3)])
      "Widget" (some 100) = .error (.circularReference "Widget") ∧
    calculate_recipe_cost (selfRefStore "Widget") "Widget" (some 100) =
      .error (.circularReference "Widget") :=
  C2_circular_reference "Widget" "Gadget" [("Bolt", 3)] 100
    (by decide) (by norm_num)
    (by
      intro s hs
      rw [List.mem_singleton] at hs
      subst hs
      exact ⟨by decide, by decide⟩)

/-- Claim C8: an unpriced terminal resource reachable from the target
recipe — here nested three levels deep, `a` needs `b` needs `c` needs
the unpriced terminal `x` — makes `calculate_recipe_cost` fail with the
resource-price-not-found error naming that resource, surfaced verbatim
to the caller with no recovery, substitution or partial result. -/
theorem C8_missing_price (a b c x : String) (e : ℚ) (he : 0 < e)
    (hab : a ≠ b) (hac : a ≠ c) (hbc : b ≠ c)
    (hxa : x ≠ a) (hxb : x ≠ b) (hxc : x ≠ c) :
    calculate_recipe_cost (chainStore a b c x) a (some e) =
      .error (.resourcePriceNotFound x) := by
  have hga : get_recipe (chainStore a b c x) a =
      some ⟨a, 1, false, none, none, none, none, [⟨b, 1⟩], []⟩ := by
    simp [get_recipe, chainStore, List.find?, List.mergeSort]
  have hgb : get_recipe (chainStore a b c x) b =
      some ⟨b, 1, false, none, none, none, none, [⟨c, 1⟩], []⟩ := by
    simp [get_recipe, chainStore, List.find?, List.mergeSort,
      beq_eq_false_iff_ne.mpr hab]
  have hgc : get_recipe (chainStore a b c x) c =
      some ⟨c, 1, false, none, none, none, none, [⟨x, 1⟩], []⟩ := by
    simp [get_recipe, chainStore, List.find?, List.mergeSort,
      beq_eq_false_iff_ne.mpr hac, beq_eq_false_iff_ne.mpr hbc]
  have hgx : get_recipe (chainStore a b c x) x = none := by
    simp [get_recipe, chainStore, List.find?,
      beq_eq_false_iff_ne.mpr hxa.symm, beq_eq_false_iff_ne.mpr hxb.symm,
      beq_eq_false_iff_ne.mpr hxc.symm]
  have hpx : get_resource_unit_price (chainStore a b c x) x = none := by
    simp [get_resource_unit_price, chainStore]
  have h2 : resource_cost (chainStore a b c x) 2 x [c, b, a] (e / 100) =
      .error (.resourcePriceNotFound x) :=
    resource_cost_missing (chainStore a b c x) 1 x [c, b, a] (e / 100)
      (by simp [hxc, hxb, hxa]) hgx hpx
  have h4 : resource_cost (chainStore a b c x) 3 c [b, a] (e / 100) =
      .error (.resourcePriceNotFound x) :=
    resource_cost_recipe_error (chainStore a b c x) 2 c [b, a] (e / 100)
      ⟨c, 1, false, none, none, none, none, [⟨x, 1⟩], []⟩
      (.resourcePriceNotFound x) (by simp [hbc.symm, hac.symm]) hgc
      (recipe_cost_aux_cons_error (chainStore a b c x) 2 ⟨x, 1⟩ []
        [c, b, a] (e / 100) 0 [] (.resourcePriceNotFound x) h2)
  have h6 : resource_cost (chainStore a b c x) 4 b [a] (e / 100) =
      .error (.resourcePriceNotFound x) :=
    resource_cost_recipe_error (chainStore a b c x) 3 b [a] (e / 100)
      ⟨b, 1, false, none, none, none, none, [⟨c, 1⟩], []⟩
      (.resourcePriceNotFound x) (by simp [hab.symm]) hgb
      (recipe_cost_aux_cons_error (chainStore a b c x) 3 ⟨c, 1⟩ []
        [b, a] (e / 100) 0 [] (.resourcePriceNotFound x) h4)
  have h7 : recipe_cost_aux (chainStore a b c x) 4 [⟨b, 1⟩] [a] (e / 100)
      0 [] = .error (.resourcePriceNotFound x) :=
    recipe_cost_aux_cons_error (chainStore a b c x) 4 ⟨b, 1⟩ [] [a]
      (e / 100) 0 [] (.resourcePriceNotFound x) h6
  rw [calculate_recipe_cost, hga]
  simp only [resolve_efficiency]
  rw [if_neg he.not_le]
  have hfuel : costFuel (chainStore a b c x) = 4 := rfl
  simp only [hfuel, h7]

/-- Witness for C8 at concrete names: the chain `A` needs `B` needs `C`
needs the unpriced terminal `X`. -/
theorem C8_witness :
    calculate_recipe_cost (chainStore "A" "B" "C" "X") "A" (some 100) =
      .error (.resourcePriceNotFound "X") :=
  C8_missing_price "A" "B" "C" "X" 100 (by norm_num) (by decide)
    (by decide) (by decide) (by decide) (by decide) (by decide)

/-- Claim C9: for every successful call, the grand total equals
run cost + blueprint components cost + each optional one-off cost (0
when absent), the grand total per unit is the grand total divided by the
output quantity (positive, per the data-model invariant), and the
blueprint components cost is what the same walk produces on the
blueprint component list with multiplier exactly 1 — unscaled by
efficiency or output quantity (0 when the list is empty, matching the
walk on the empty list). -/
theorem C9_augmentation (db : Store) (name : String) (r : Recipe)
    (hr : get_recipe db name = some r) (hoq : 0 < r.output_quantity) :
    ∀ eff res, calculate_recipe_cost db name eff = .ok res →
      res.total_with_additions =
        res.run_cost + res.blueprint_components_cost +
          res.blueprint_cost.getD 0 + res.creation_cost.getD 0 +
          res.blueprint_creation_cost.getD 0 ∧
      res.unit_cost_with_additions =
        res.total_with_additions / r.output_quantity ∧
      ∃ bbd, recipe_cost_aux db (costFuel db) r.blueprint_components
        [name] 1 0 [] = .ok (res.blueprint_components_cost, bbd) := by
  intro eff res hok
  rcases hres : resolve_efficiency db r eff with ⟨ev, src⟩
  rw [calculate_recipe_cost, hr] at hok
  simp only [hres] at hok
  by_cases hev : ev ≤ 0
  · simp only [if_pos hev] at hok
    cases hok
  · simp only [if_neg hev] at hok
    cases haux : recipe_cost_aux db (costFuel db) r.components [name]
        (ev / 100) 0 [] with
    | error e1 =>
      rw [haux] at hok
      cases hok
    | ok v =>
      obtain ⟨t, bd⟩ := v
      rw [haux] at hok
      simp only [if_neg hoq.ne'] at hok
      by_cases hbe : r.blueprint_components.isEmpty
      · simp only [if_pos hbe] at hok
        rw [Except.ok.injEq] at hok
        subst hok
        have hbnil : r.blueprint_components = [] := by
          simpa [List.isEmpty_iff] using hbe
        refine ⟨rfl, ?_, ⟨[], ?_⟩⟩
        · simp only [if_pos hoq]
        · rw [hbnil, recipe_cost_aux_nil]
      · simp only [if_neg hbe] at hok
        cases hbpx : recipe_cost_aux db (costFuel db)
            r.blueprint_components [name] 1 0 [] with
        | error e2 =>
          rw [hbpx] at hok
          cases hok
        | ok w =>
          obtain ⟨bc, bbd⟩ := w
          rw [hbpx] at hok
          rw [Except.ok.injEq] at hok
          subst hok
          refine ⟨rfl, ?_, ⟨bbd, ?_⟩⟩
          · simp only [if_pos hoq]
          · rfl

/-- A recipe carrying all three one-off costs and a blueprint component
list: `Ship` (output 2, blueprint cost 7, creation cost 11, blueprint
creation cost 13) needs 2 `Bolt` per run and 3 `Bolt` one-off for its
blueprint; `Bolt` is priced 5. -/
def bpStore : Store :=
  { recipes :=
      [ ⟨"Ship", 2, false, none, some 7, some 11, some 13,
          [⟨"Bolt", 2⟩], [⟨"Bolt", 3⟩]⟩ ]
    resource_prices := [("Bolt", 5)]
    ship_type_efficiencies := []
    global_efficiency := none }

/-- Witness for C9 at a concrete input: on `bpStore` the run cost is 10,
the blueprint components cost 15 (multiplier 1), and the grand total is
10 + 15 + 7 + 11 + 13 = 56 with per-unit 28. -/
theorem C9_witness :
    (⟨100, 10, 5, 2, [⟨"Bolt", 2, 5, 10⟩], none, "custom", some 7,
        some 11, some 13, 56, 28, [⟨"Bolt", 3, 5, 15⟩], 15⟩ :
          CostResult).total_with_additions =
      (10 : ℚ) + 15 + (some (7 : ℚ)).getD 0 + (some (11 : ℚ)).getD 0 +
        (some (13 : ℚ)).getD 0 ∧
    (28 : ℚ) = 56 / 2 ∧
    ∃ bbd, recipe_cost_aux bpStore (costFuel bpStore) [⟨"Bolt", 3⟩]
      ["Ship"] 1 0 [] = .ok (15, bbd) := by
  have hauxMain : recipe_cost_aux bpStore 2 [⟨"Bolt", 2⟩] ["Ship"] 1
      0 [] = .ok (10, [("Bolt", 2, 5)]) := by
    simp [recipe_cost_aux, resource_cost, get_recipe,
      get_resource_unit_price, bpStore, List.find?, mergeBreakdown,
      addToBreakdown, List.mergeSort]
    norm_num [addToBreakdown]
  have hauxBp : recipe_cost_aux bpStore 2 [⟨"Bolt", 3⟩] ["Ship"] 1
      0 [] = .ok (15, [("Bolt", 3, 5)]) := by
    simp [recipe_cost_aux, resource_cost, get_recipe,
      get_resource_unit_price, bpStore, List.find?, mergeBreakdown,
      addToBreakdown, List.mergeSort]
    norm_num [addToBreakdown]
  have hass := calculate_recipe_cost_ok bpStore "Ship"
    ⟨"Ship", 2, false, none, some 7, some 11, some 13,
      [⟨"Bolt", 2⟩], [⟨"Bolt", 3⟩]⟩
    100 "custom" (some 100) 10 [("Bolt", 2, 5)] 15 [("Bolt", 3, 5)]
    (by simp [get_recipe, bpStore, List.find?, List.mergeSort])
    (by simp [resolve_efficiency])
    (by norm_num)
    (by
      rw [show ((100 : ℚ) / 100) = 1 from by norm_num]
      exact hauxMain)
    (by norm_num)
    (by
      rw [if_neg (by simp)]
      exact hauxBp)
  have hcalc : calculate_recipe_cost bpStore "Ship" (some 100) =
      .ok ⟨100, 10, 5, 2, [⟨"Bolt", 2, 5, 10⟩], none, "custom", some 7,
        some 11, some 13, 56, 28, [⟨"Bolt", 3, 5, 15⟩], 15⟩ := by
    rw [hass]
    simp [finalizeBreakdown, List.mergeSort, stringLE, charListLE]
    norm_num
  have h := C9_augmentation bpStore "Ship"
    ⟨"Ship", 2, false, none, some 7, some 11, some 13,
      [⟨"Bolt", 2⟩], [⟨"Bolt", 3⟩]⟩
    (by simp [get_recipe, bpStore, List.find?, List.mergeSort])
    (by norm_num) (some 100) _ hcalc
  exact h

/-- Claim C10: the positivity check on output quantity guards only
nested sub-recipe expansion.  `add_recipe` accepts a recipe authored
with output quantity 0 (no write-time validation), and a top-level
`calculate_recipe_cost` on it walks the components successfully and then
hits the unguarded division `run_cost / output_quantity`, failing with
the decimal division-by-zero signal rather than the invalid-recipe
error. -/
theorem C10_zero_output_quantity :
    get_recipe zeroOutputStore "Widget" =
      some ⟨"Widget", 0, false, none, none, none, none, [⟨"Bolt", 2⟩], []⟩ ∧
    calculate_recipe_cost zeroOutputStore "Widget" (some 100) =
      .error .decimalDivisionByZero ∧
    CostError.decimalDivisionByZero ≠ CostError.invalidRecipe "Widget" := by
  have hgr : get_recipe zeroOutputStore "Widget" =
      some ⟨"Widget", 0, false, none, none, none, none,
        [⟨"Bolt", 2⟩], []⟩ := by
    simp [get_recipe, zeroOutputStore, add_recipe, emptyStore, upsertPrice,
      normalise_ship_type, List.find?, List.mergeSort]
  have haux0 : recipe_cost_aux zeroOutputStore 2 [⟨"Bolt", 2⟩] ["Widget"]
      1 0 [] = .ok (6, [("Bolt", 2, 3)]) := by
    simp [recipe_cost_aux, resource_cost, get_recipe,
      get_resource_unit_price, zeroOutputStore, add_recipe, emptyStore,
      upsertPrice, normalise_ship_type, List.find?, mergeBreakdown,
      addToBreakdown, List.mergeSort]
    norm_num [addToBreakdown]
  refine ⟨hgr, ?_, by simp⟩
  exact calculate_recipe_cost_divzero zeroOutputStore "Widget"
    ⟨"Widget", 0, false, none, none, none, none, [⟨"Bolt", 2⟩], []⟩
    100 "custom" (some 100) 6 [("Bolt", 2, 3)] hgr
    (by simp [resolve_efficiency]) (by norm_num)
    (by
      rw [show ((100 : ℚ) / 100) = 1 from by norm_num]
      exact haux0)
    rfl (by norm_num)

/-- Monetary value of a breakdown under construction: the sum of
`quantity * unit_price` over its entries. -/
def breakdownSum : Breakdown → ℚ
  | [] => 0
  | entry :: rest => entry.2.1 * entry.2.2 + breakdownSum rest

/-- The price carried by every breakdown entry is the stored price of
its resource: the invariant that makes the last-write price overwrite of
the merge loop harmless. -/
def priceConsistent (db : Store) (bd : Breakdown) : Prop :=
  ∀ entry ∈ bd, get_resource_unit_price db entry.1 = some entry.2.2

theorem priceConsistent_nil (db : Store) : priceConsistent db [] := by
  intro entry he
  cases he

/-- One dict-update step adds exactly `quantity * price` to the
breakdown sum when all prices come from the store. -/
theorem addToBreakdown_sum (db : Store) (bd : Breakdown) (n : String)
    (q p : ℚ) (hbd : priceConsistent db bd)
    (hp : get_resource_unit_price db n = some p) :
    breakdownSum (addToBreakdown bd n q p) = breakdownSum bd + q * p := by
  induction bd with
  | nil =>
    simp [addToBreakdown, breakdownSum]
  | cons entry rest ih =>
    by_cases hn : entry.1 = n
    · have hep : get_resource_unit_price db entry.1 = some entry.2.2 :=
        hbd entry (List.mem_cons_self entry rest)
      rw [hn, hp] at hep
      rw [Option.some.injEq] at hep
      rw [addToBreakdown, if_pos hn, breakdownSum, breakdownSum, hep]
      ring
    · rw [addToBreakdown, if_neg hn, breakdownSum, breakdownSum,
        ih (fun x hx => hbd x (List.mem_cons_of_mem entry hx))]
      ring

/-- One dict-update step preserves price consistency when the written
price is the stored one. -/
theorem addToBreakdown_consistent (db : Store) (bd : Breakdown)
    (n : String) (q p : ℚ) (hbd : priceConsistent db bd)
    (hp : get_resource_unit_price db n = some p) :
    priceConsistent db (addToBreakdown bd n q p) := by
  induction bd with
  | nil =>
    intro entry he
    rw [addToBreakdown, List.mem_singleton] at he
    subst he
    exact hp
  | cons e rest ih =>
    by_cases hn : e.1 = n
    · intro entry he
      rw [addToBreakdown, if_pos hn, List.mem_cons] at he
      rcases he with rfl | hmem
      · rw [hn]
        exact hp
      · exact hbd entry (List.mem_cons_of_mem e hmem)
    · intro entry he
      rw [addToBreakdown, if_neg hn, List.mem_cons] at he
      rcases he with rfl | hmem
      · exact hbd _ (List.mem_cons_self _ rest)
      · exact ih (fun x hx => hbd x (List.mem_cons_of_mem _ hx)) entry hmem

/-- The merge loop scales the merged sum by the effective component
quantity and preserves price consistency. -/
theorem mergeBreakdown_sum (db : Store) (cbd : Breakdown) :
    ∀ bd cq, priceConsistent db bd → priceConsistent db cbd →
      priceConsistent db (mergeBreakdown bd cbd cq) ∧
      breakdownSum (mergeBreakdown bd cbd cq) =
        breakdownSum bd + cq * breakdownSum cbd := by
  induction cbd with
  | nil =>
    intro bd cq hbd _
    refine ⟨hbd, ?_⟩
    simp [mergeBreakdown, breakdownSum]
  | cons e rest ih =>
    intro bd cq hbd hcbd
    have hep : get_resource_unit_price db e.1 = some e.2.2 :=
      hcbd e (List.mem_cons_self e rest)
    have hstep : mergeBreakdown bd (e :: rest) cq =
        mergeBreakdown (addToBreakdown bd e.1 (e.2.1 * cq) e.2.2) rest cq :=
      rfl
    have hacc : priceConsistent db (addToBreakdown bd e.1 (e.2.1 * cq) e.2.2) :=
      addToBreakdown_consistent db bd e.1 (e.2.1 * cq) e.2.2 hbd hep
    obtain ⟨hcons, hsum⟩ := ih (addToBreakdown bd e.1 (e.2.1 * cq) e.2.2) cq
      hacc (fun x hx => hcbd x (List.mem_cons_of_mem e hx))
    refine ⟨by rw [hstep]; exact hcons, ?_⟩
    rw [hstep, hsum,
      addToBreakdown_sum db bd e.1 (e.2.1 * cq) e.2.2 hbd hep, breakdownSum]
    ring

/-- Dividing every quantity of a breakdown by a fixed quantity divides
its sum by that quantity. -/
theorem breakdownSum_scale (q : ℚ) (bd : Breakdown) :
    breakdownSum (bd.map (fun entry => (entry.1, entry.2.1 / q, entry.2.2))) =
      breakdownSum bd / q := by
  induction bd with
  | nil =>
    simp [breakdownSum]
  | cons e rest ih =>
    rw [List.map_cons, breakdownSum, breakdownSum, ih]
    ring

/-- Conservation invariant of the walk, by induction on fuel: every
successful `resource_cost` returns a price-consistent breakdown whose
sum is exactly the returned cost, and every successful loop step grows
the running total and the breakdown sum by the same amount. -/
theorem cost_conservation (db : Store) : ∀ fuel : Nat,
    (∀ n v m c bd, resource_cost db fuel n v m = .ok (c, bd) →
      priceConsistent db bd ∧ c = breakdownSum bd) ∧
    (∀ comps : List RecipeComponent, ∀ v m t0 bd0 t bd,
      priceConsistent db bd0 →
      recipe_cost_aux db fuel comps v m t0 bd0 = .ok (t, bd) →
      priceConsistent db bd ∧ t + breakdownSum bd0 = t0 + breakdownSum bd) := by
  intro fuel
  induction fuel with
  | zero =>
    constructor
    · intro n v m c bd hok
      rw [resource_cost_zero] at hok
      cases hok
    · intro comps
      induction comps with
      | nil =>
        intro v m t0 bd0 t bd hcons hok
        rw [recipe_cost_aux_nil, Except.ok.injEq, Prod.mk.injEq] at hok
        obtain ⟨rfl, rfl⟩ := hok
        exact ⟨hcons, rfl⟩
      | cons c cs ihc =>
        intro v m t0 bd0 t bd hcons hok
        rw [recipe_cost_aux_cons_error db 0 c cs v m t0 bd0 .outOfFuel
          (resource_cost_zero db c.resource_name v m)] at hok
        cases hok
  | succ n ihn =>
    have hR : ∀ nm v m c bd, resource_cost db (n + 1) nm v m = .ok (c, bd) →
        priceConsistent db bd ∧ c = breakdownSum bd := by
      intro nm v m c bd hok
      by_cases hmem : nm ∈ v
      · rw [resource_cost_mem db n nm v m hmem] at hok
        cases hok
      · cases hrec : get_recipe db nm with
        | some r =>
          rw [resource_cost_recipe db n nm v m r hmem hrec] at hok
          cases haux : recipe_cost_aux db n r.components (nm :: v) m 0 [] with
          | error e =>
            rw [haux] at hok
            cases hok
          | ok w =>
            obtain ⟨cr, nbd⟩ := w
            rw [haux] at hok
            by_cases hoq : r.output_quantity ≤ 0
            · simp only [if_pos hoq] at hok
              cases hok
            · simp only [if_neg hoq] at hok
              rw [Except.ok.injEq, Prod.mk.injEq] at hok
              obtain ⟨hc, hbd⟩ := hok
              obtain ⟨hncons, hnsum⟩ := ihn.2 r.components (nm :: v) m 0 []
                cr nbd (priceConsistent_nil db) haux
              subst hc
              subst hbd
              constructor
              · intro entry he
                obtain ⟨e0, he0, rfl⟩ := List.mem_map.mp he
                exact hncons e0 he0
              · rw [breakdownSum_scale]
                rw [breakdownSum] at hnsum
                have hcr : cr = breakdownSum nbd := by linarith
                rw [hcr]
        | none =>
          cases hp : get_resource_unit_price db nm with
          | none =>
            rw [resource_cost_missing db n nm v m hmem hrec hp] at hok
            cases hok
          | some p =>
            rw [resource_cost_terminal db n nm v m p hmem hrec hp,
              Except.ok.injEq, Prod.mk.injEq] at hok
            obtain ⟨hc, hbd⟩ := hok
            subst hc
            subst hbd
            constructor
            · intro entry he
              rw [List.mem_singleton] at he
              subst he
              exact hp
            · rw [breakdownSum, breakdownSum]
              ring
    refine ⟨hR, ?_⟩
    intro comps
    induction comps with
    | nil =>
      intro v m t0 bd0 t bd hcons hok
      rw [recipe_cost_aux_nil, Except.ok.injEq, Prod.mk.injEq] at hok
      obtain ⟨rfl, rfl⟩ := hok
      exact ⟨hcons, rfl⟩
    | cons c cs ihc =>
      intro v m t0 bd0 t bd hcons hok
      cases hrc : resource_cost db (n + 1) c.resource_name v m with
      | error e =>
        rw [recipe_cost_aux_cons_error db (n + 1) c cs v m t0 bd0 e hrc]
          at hok
        cases hok
      | ok w =>
        obtain ⟨cc, cbd⟩ := w
        rw [recipe_cost_aux_cons_ok db (n + 1) c cs v m t0 cc bd0 cbd hrc]
          at hok
        obtain ⟨hccons, hcsum⟩ := hR c.resource_name v m cc cbd hrc
        obtain ⟨hmcons, hmsum⟩ := mergeBreakdown_sum db cbd bd0
          (c.quantity * m) hcons hccons
        obtain ⟨hfin, hsum⟩ := ihc v m (t0 + c.quantity * m * cc)
          (mergeBreakdown bd0 cbd (c.quantity * m)) t bd hmcons hok
        refine ⟨hfin, ?_⟩
        rw [hmsum] at hsum
        rw [hcsum] at hsum
        linarith

/-- Restating the breakdown sum as a mapped list sum, for transport
along the sorting permutation of the finalization step. -/
theorem breakdownSum_eq_map_sum (bd : Breakdown) :
    breakdownSum bd = (bd.map (fun entry => entry.2.2 * entry.2.1)).sum := by
  induction bd with
  | nil =>
    simp [breakdownSum]
  | cons e rest ih =>
    rw [List.map_cons, breakdownSum, List.sum_cons, ih]
    ring

/-- Claim C5 (amended): under exact decimal arithmetic — the spec's
stated intent, modelled by the main (rational) embedding — the sum of
`total_cost` (recomputed as `unit_price * quantity` from the merged
quantity at finalization) over all rows of the components breakdown of
every successful `calculate_recipe_cost` call equals the returned run
cost.  Under the arithmetic the program actually performs (Python's
default 28-significant-digit decimal context) this conservation fails:
the rounded model exhibits a breakdown sum that drifts below the run
cost. -/
theorem C5_breakdown_conservation (db : Store) (name : String)
    (eff : Option ℚ) (res : CostResult)
    (hok : calculate_recipe_cost db name eff = .ok res) :
    (res.components.map CostBreakdownEntry.total_cost).sum = res.run_cost := by
  cases hgr : get_recipe db name with
  | none =>
    rw [calculate_recipe_cost, hgr] at hok
    cases hok
  | some r =>
    rcases hres : resolve_efficiency db r eff with ⟨ev, src⟩
    rw [calculate_recipe_cost, hgr] at hok
    simp only [hres] at hok
    by_cases hev : ev ≤ 0
    · simp only [if_pos hev] at hok
      cases hok
    · simp only [if_neg hev] at hok
      cases haux : recipe_cost_aux db (costFuel db) r.components [name]
          (ev / 100) 0 [] with
      | error e1 =>
        rw [haux] at hok
        cases hok
      | ok v =>
        obtain ⟨t, bd⟩ := v
        rw [haux] at hok
        by_cases hoq : r.output_quantity = 0
        · simp only [if_pos hoq] at hok
          cases hok
        · simp only [if_neg hoq] at hok
          cases hbpx : (if r.blueprint_components.isEmpty then
              Except.ok ((0 : ℚ), ([] : Breakdown))
            else
              recipe_cost_aux db (costFuel db) r.blueprint_components
                [name] 1 0 []) with
          | error e2 =>
            rw [hbpx] at hok
            cases hok
          | ok w =>
            obtain ⟨bc, bbd⟩ := w
            rw [hbpx] at hok
            rw [Except.ok.injEq] at hok
            subst hok
            obtain ⟨_, hsum⟩ := (cost_conservation db (costFuel db)).2
              r.components [name] (ev / 100) 0 [] t bd
              (priceConsistent_nil db) haux
            rw [breakdownSum] at hsum
            have ht : t = breakdownSum bd := by linarith
            show ((finalizeBreakdown bd).map CostBreakdownEntry.total_cost).sum = t
            rw [ht, finalizeBreakdown, List.map_map]
            have hperm :
                ((bd.mergeSort (fun a b => stringLE a.1 b.1)).map
                  (CostBreakdownEntry.total_cost ∘ fun entry =>
                    CostBreakdownEntry.mk entry.1 entry.2.1 entry.2.2
                      (entry.2.2 * entry.2.1))).sum =
                (bd.map (CostBreakdownEntry.total_cost ∘ fun entry =>
                    CostBreakdownEntry.mk entry.1 entry.2.1 entry.2.2
                      (entry.2.2 * entry.2.1))).sum :=
              List.Perm.sum_eq (List.Perm.map _
                (List.mergeSort_perm bd (fun a b => stringLE a.1 b.1)))
            rw [hperm, breakdownSum_eq_map_sum]
            rfl

/-- Witness for C5 at a concrete input: the Scenario A result, whose
single breakdown row carries total cost 12 = run cost. -/
theorem C5_witness :
    (([⟨"Bolt", 4, 3, 12⟩] : List CostBreakdownEntry).map
      CostBreakdownEntry.total_cost).sum = (12 : ℚ) := by
  have hauxW : recipe_cost_aux scenarioA 3 [⟨"Bolt", 2⟩, ⟨"Gadget", 1⟩]
      ["Widget"] 1 0 [] = .ok (12, [("Bolt", 4, 3)]) := by
    simp [recipe_cost_aux, resource_cost, get_recipe,
      get_resource_unit_price, scenarioA, List.find?, mergeBreakdown,
      addToBreakdown, List.mergeSort]
    norm_num [addToBreakdown]
  have h := calculate_recipe_cost_ok scenarioA "Widget"
    ⟨"Widget", 1, false, none, none, none, none,
      [⟨"Bolt", 2⟩, ⟨"Gadget", 1⟩], []⟩
    100 "global" none 12 [("Bolt", 4, 3)] 0 []
    (by simp [get_recipe, scenarioA, List.find?, List.mergeSort,
      componentLE, stringLE, charListLE])
    (by simp [resolve_efficiency, get_global_efficiency, scenarioA])
    (by norm_num)
    (by
      rw [show ((100 : ℚ) / 100) = 1 from by norm_num]
      exact hauxW)
    (by norm_num) rfl
  have hcalc : calculate_recipe_cost scenarioA "Widget" none =
      .ok ⟨100, 12, 12, 1, [⟨"Bolt", 4, 3, 12⟩], none, "global", none,
        none, none, 12, 12, [], 0⟩ := by
    rw [h]
    simp [finalizeBreakdown, List.mergeSort, stringLE, charListLE]
    norm_num
  exact C5_breakdown_conservation scenarioA "Widget" none _ hcalc

/-- Counterexample to C5 as stated: under the arithmetic the program
actually performs (every operation rounded to 28 significant digits by
Python's default decimal context, modelled by `calculate_recipe_costD`),
conservation fails.  On the drift store — `P` needs one `S`, a
sub-recipe with output quantity 3 whose two terminals are priced 1 and
2 — the run cost is exactly 1 but the breakdown rows carry the rounded
quantity 0.3333333333333333333333333333 at unit prices 1 and 2, so the
sum of `total_cost` is 0.9999999999999999999999999999, strictly below
the run cost. -/
theorem C5_counterexample :
    ∃ res,
      calculate_recipe_costD driftStore "P" (some 100) = .ok res ∧
      res.run_cost = 1 ∧
      sumTotalD res.components =
        9999999999999999999999999999 / 10000000000000000000000000000 ∧
      ¬ sumTotalD res.components = res.run_cost := by
  have hmul11 : decMul (1 : ℚ) 1 = 1 := by
    norm_num [decMul, sigRound, digitsLen, digitsLenAux]
  have hmul12 : decMul (1 : ℚ) 2 = 2 := by
    norm_num [decMul, sigRound, digitsLen, digitsLenAux]
  have hadd01 : decAdd (0 : ℚ) 1 = 1 := by
    norm_num [decAdd, sigRound, digitsLen, digitsLenAux]
  have hadd12 : decAdd (1 : ℚ) 2 = 3 := by
    norm_num [decAdd, sigRound, digitsLen, digitsLenAux]
  have hdiv33 : decDiv (3 : ℚ) 3 = 1 := by
    norm_num [decDiv, sigRound, digitsLen, digitsLenAux]
  have hdiv13 : decDiv (1 : ℚ) 3 =
      3333333333333333333333333333 / 10000000000000000000000000000 := by
    norm_num [decDiv, sigRound, digitsLen, digitsLenAux]
  have hmulR31 : decMul
      (3333333333333333333333333333 / 10000000000000000000000000000 : ℚ)
      1 = 3333333333333333333333333333 / 10000000000000000000000000000 := by
    norm_num [decMul, sigRound, digitsLen, digitsLenAux]
  have hmul1R3 : decMul (1 : ℚ)
      (3333333333333333333333333333 / 10000000000000000000000000000) =
      3333333333333333333333333333 / 10000000000000000000000000000 := by
    norm_num [decMul, sigRound, digitsLen, digitsLenAux]
  have hmul2R3 : decMul (2 : ℚ)
      (3333333333333333333333333333 / 10000000000000000000000000000) =
      3333333333333333333333333333 / 5000000000000000000000000000 := by
    norm_num [decMul, sigRound, digitsLen, digitsLenAux]
  have hadd0R3 : decAdd (0 : ℚ)
      (3333333333333333333333333333 / 10000000000000000000000000000) =
      3333333333333333333333333333 / 10000000000000000000000000000 := by
    norm_num [decAdd, sigRound, digitsLen, digitsLenAux]
  have haddR3R6 : decAdd
      (3333333333333333333333333333 / 10000000000000000000000000000 : ℚ)
      (3333333333333333333333333333 / 5000000000000000000000000000) =
      9999999999999999999999999999 / 10000000000000000000000000000 := by
    norm_num [decAdd, sigRound, digitsLen, digitsLenAux]
  have hS_aux : recipe_cost_auxD driftStore 2 [⟨"A", 1⟩, ⟨"B", 1⟩]
      ["S", "P"] 1 0 [] = .ok (3, [("A", 1, 1), ("B", 1, 2)]) := by
    simp [recipe_cost_auxD, resource_costD, driftStore, get_recipe,
      get_resource_unit_price, List.find?, mergeBreakdownD,
      addToBreakdownD, hmul11, hmul12, hadd01, hadd12]
  have hgrS : get_recipe driftStore "S" =
      some ⟨"S", 3, false, none, none, none, none,
        [⟨"A", 1⟩, ⟨"B", 1⟩], []⟩ := by
    simp [get_recipe, driftStore, List.find?, List.mergeSort, List.merge,
      componentLE, stringLE, charListLE]
  have hS : resource_costD driftStore 3 "S" ["P"] 1 =
      .ok (1,
        [("A", 3333333333333333333333333333 / 10000000000000000000000000000,
          1),
         ("B", 3333333333333333333333333333 / 10000000000000000000000000000,
          2)]) := by
    norm_num [resource_costD, hgrS, hS_aux, hdiv33, hdiv13]
    intro h
    exact absurd h (by decide)
  have hcf : costFuel driftStore = 3 := rfl
  have hP_aux : recipe_cost_auxD driftStore (costFuel driftStore)
      [⟨"S", 1⟩] ["P"] 1 0 [] =
      .ok (1,
        [("A", 3333333333333333333333333333 / 10000000000000000000000000000,
          1),
         ("B", 3333333333333333333333333333 / 10000000000000000000000000000,
          2)]) := by
    simp [recipe_cost_auxD, hcf, hS, mergeBreakdownD,
      addToBreakdownD, hmul11, hadd01, hmulR31]
  have hsum : sumTotalD (finalizeBreakdownD
      [("A", 3333333333333333333333333333 / 10000000000000000000000000000,
        1),
       ("B", 3333333333333333333333333333 / 10000000000000000000000000000,
        2)]) =
      9999999999999999999999999999 / 10000000000000000000000000000 := by
    simp [finalizeBreakdownD, sumTotalD, List.mergeSort, List.merge,
      stringLE, charListLE, hmul1R3, hmul2R3, hadd0R3, haddR3R6]
  have hcalc := calculate_recipe_costD_ok driftStore "P"
    ⟨"P", 1, false, none, none, none, none, [⟨"S", 1⟩], []⟩
    100 "custom" (some 100) 1
    [("A", 3333333333333333333333333333 / 10000000000000000000000000000, 1),
     ("B", 3333333333333333333333333333 / 10000000000000000000000000000, 2)]
    0 []
    (by simp [get_recipe, driftStore, List.find?, List.mergeSort])
    (by simp [resolve_efficiency])
    (by norm_num)
    (by
      rw [show decDiv (100 : ℚ) 100 = 1 from by
        norm_num [decDiv, sigRound, digitsLen, digitsLenAux]]
      exact hP_aux)
    (by norm_num)
    rfl
  refine ⟨_, hcalc, rfl, hsum, ?_⟩
  show ¬ sumTotalD (finalizeBreakdownD
      [("A", 3333333333333333333333333333 / 10000000000000000000000000000,
        1),
       ("B", 3333333333333333333333333333 / 10000000000000000000000000000,
        2)]) = (1 : ℚ)
  rw [hsum]
  norm_num

/-- Unfolding lemma for the stateful walker: no fuel. -/
theorem resource_costS_zero (db : Store) (n : String) (v : List String)
    (m : ℚ) : resource_costS db 0 n v m = (.error .outOfFuel, v) := by
  rw [resource_costS]

/-- Unfolding lemma for the stateful walker: cycle guard hit, set
unchanged. -/
theorem resource_costS_mem (db : Store) (fuel : Nat) (n : String)
    (v : List String) (m : ℚ) (h : n ∈ v) :
    resource_costS db (fuel + 1) n v m =
      (.error (.circularReference n), v) := by
  rw [resource_costS]
  simp [h]

/-- Unfolding lemma for the stateful walker: priced terminal, set
unchanged. -/
theorem resource_costS_terminal (db : Store) (fuel : Nat) (n : String)
    (v : List String) (m p : ℚ) (h1 : n ∉ v) (h2 : get_recipe db n = none)
    (h3 : get_resource_unit_price db n = some p) :
    resource_costS db (fuel + 1) n v m = (.ok (p, [(n, 1, p)]), v) := by
  rw [resource_costS]
  simp [h1, h2, h3]

/-- Unfolding lemma for the stateful walker: unpriced terminal, set
unchanged. -/
theorem resource_costS_missing (db : Store) (fuel : Nat) (n : String)
    (v : List String) (m : ℚ) (h1 : n ∉ v) (h2 : get_recipe db n = none)
    (h3 : get_resource_unit_price db n = none) :
    resource_costS db (fuel + 1) n v m =
      (.error (.resourcePriceNotFound n), v) := by
  rw [resource_costS]
  simp [h1, h2, h3]

/-- Unfolding lemma for the stateful walker: descent into a nested
recipe, with the Python mutation order — the name is pushed before the
nested walk and erased only after a successful return; an error
propagates with the set exactly as the nested walk left it. -/
theorem resource_costS_recipe (db : Store) (fuel : Nat) (n : String)
    (v : List String) (m : ℚ) (r : Recipe) (h1 : n ∉ v)
    (h2 : get_recipe db n = some r) :
    resource_costS db (fuel + 1) n v m =
      match recipe_cost_auxS db fuel r.components (n :: v) m 0 [] with
      | (.error e, visiting') => (.error e, visiting')
      | (.ok (cost_per_run, nested_breakdown), visiting') =>
        if r.output_quantity ≤ 0 then
          (.error (.invalidRecipe n), visiting'.erase n)
        else
          (.ok (cost_per_run / r.output_quantity,
            nested_breakdown.map
              (fun entry =>
                (entry.1, entry.2.1 / r.output_quantity, entry.2.2))),
            visiting'.erase n) := by
  rw [resource_costS]
  simp only [h2, if_neg h1]

/-- Unfolding lemma for the stateful loop: empty component list. -/
theorem recipe_cost_auxS_nil (db : Store) (fuel : Nat) (v : List String)
    (m t : ℚ) (bd : Breakdown) :
    recipe_cost_auxS db fuel [] v m t bd = (.ok (t, bd), v) := by
  rw [recipe_cost_auxS]

/-- Unfolding lemma for the stateful loop: a failing component aborts
with the set as that component's evaluation left it. -/
theorem recipe_cost_auxS_cons_error (db : Store) (fuel : Nat)
    (c : RecipeComponent) (rest : List RecipeComponent) (v v' : List String)
    (m t : ℚ) (bd : Breakdown) (e : CostError)
    (h : resource_costS db fuel c.resource_name v m = (.error e, v')) :
    recipe_cost_auxS db fuel (c :: rest) v m t bd = (.error e, v') := by
  rw [recipe_cost_auxS]
  simp [h]

/-- Unfolding lemma for the stateful loop: a successful component passes
the (possibly updated) set to the remaining components. -/
theorem recipe_cost_auxS_cons_ok (db : Store) (fuel : Nat)
    (c : RecipeComponent) (rest : List RecipeComponent) (v v' : List String)
    (m t cc : ℚ) (bd cbd : Breakdown)
    (h : resource_costS db fuel c.resource_name v m = (.ok (cc, cbd), v')) :
    recipe_cost_auxS db fuel (c :: rest) v m t bd =
      recipe_cost_auxS db fuel rest v' m (t + c.quantity * m * cc)
        (mergeBreakdown bd cbd (c.quantity * m)) := by
  rw [recipe_cost_auxS]
  simp [h]

/-- Restoration invariant of the stateful walker: every successful call
returns the visiting set exactly as it received it (the pushed name is
erased on the successful return path), so during successful evaluation
set membership is exactly the chain of recipe names on the current
expansion call stack. -/
theorem visiting_restoration (db : Store) : ∀ fuel : Nat,
    (∀ n v m res v', resource_costS db fuel n v m = (.ok res, v') →
      v' = v) ∧
    (∀ comps : List RecipeComponent, ∀ v m t0 bd0 res v',
      recipe_cost_auxS db fuel comps v m t0 bd0 = (.ok res, v') →
      v' = v) := by
  intro fuel
  induction fuel with
  | zero =>
    constructor
    · intro n v m res v' hok
      rw [resource_costS_zero] at hok
      simp at hok
    · intro comps
      induction comps with
      | nil =>
        intro v m t0 bd0 res v' hok
        rw [recipe_cost_auxS_nil, Prod.mk.injEq] at hok
        exact hok.2.symm
      | cons c cs ihc =>
        intro v m t0 bd0 res v' hok
        rw [recipe_cost_auxS_cons_error db 0 c cs v v m t0 bd0 .outOfFuel
          (resource_costS_zero db c.resource_name v m)] at hok
        simp at hok
  | succ n ihn =>
    have hR : ∀ nm v m res v',
        resource_costS db (n + 1) nm v m = (.ok res, v') → v' = v := by
      intro nm v m res v' hok
      by_cases hmem : nm ∈ v
      · rw [resource_costS_mem db n nm v m hmem] at hok
        simp at hok
      · cases hrec : get_recipe db nm with
        | some r =>
          rw [resource_costS_recipe db n nm v m r hmem hrec] at hok
          cases hauxS : recipe_cost_auxS db n r.components (nm :: v) m
              0 [] with
          | mk inner w =>
            rw [hauxS] at hok
            cases inner with
            | error e =>
              simp at hok
            | ok iw =>
              obtain ⟨cr, nbd⟩ := iw
              have hw : w = nm :: v := ihn.2 r.components (nm :: v) m 0 []
                (cr, nbd) w hauxS
              by_cases hoq : r.output_quantity ≤ 0
              · simp only [if_pos hoq] at hok
                simp at hok
              · simp only [if_neg hoq] at hok
                rw [Prod.mk.injEq] at hok
                rw [hok.2.symm, hw, List.erase_cons_head]
        | none =>
          cases hp : get_resource_unit_price db nm with
          | none =>
            rw [resource_costS_missing db n nm v m hmem hrec hp] at hok
            simp at hok
          | some p =>
            rw [resource_costS_terminal db n nm v m p hmem hrec hp,
              Prod.mk.injEq] at hok
            exact hok.2.symm
    refine ⟨hR, ?_⟩
    intro comps
    induction comps with
    | nil =>
      intro v m t0 bd0 res v' hok
      rw [recipe_cost_auxS_nil, Prod.mk.injEq] at hok
      exact hok.2.symm
    | cons c cs ihc =>
      intro v m t0 bd0 res v' hok
      cases hrc : resource_costS db (n + 1) c.resource_name v m with
      | mk inner w =>
        cases inner with
        | error e =>
          rw [recipe_cost_auxS_cons_error db (n + 1) c cs v w m t0 bd0 e
            hrc] at hok
          simp at hok
        | ok iw =>
          obtain ⟨cc, cbd⟩ := iw
          have hw : w = v := hR c.resource_name v m (cc, cbd) w hrc
          rw [recipe_cost_auxS_cons_ok db (n + 1) c cs v w m t0 cc bd0 cbd
            hrc] at hok
          have := ihc w m (t0 + c.quantity * m * cc)
            (mergeBreakdown bd0 cbd (c.quantity * m)) res v' hok
          rw [this, hw]

/-- Claim C7, counterexample: the entry is NOT removed when an error
propagates out of a descent.  On `missingPriceStore`, descending into
`B` from visiting set `["A"]` pushes `B` and then fails (unpriced `X`);
the error escapes with the set still containing `B` — the Python
`visiting.remove` on the line after the recursive call is skipped by the
propagating exception — whereas the claim requires the set to be back to
`["A"]`. -/
theorem C7_counterexample :
    resource_costS missingPriceStore 3 "B" ["A"] 1 =
      (.error (.resourcePriceNotFound "X"), ["B", "A"]) ∧
    (["B", "A"] : List String) ≠ ["A"] := by
  constructor
  · simp [resource_costS, recipe_cost_auxS, get_recipe,
      get_resource_unit_price, missingPriceStore, List.find?,
      List.mergeSort, mergeBreakdown, addToBreakdown]
  · simp

/-- Claim C7, amended: a name is added when descent into a recipe begins
and removed when that descent returns successfully, so on every
successful call the visiting set is restored exactly to its input — set
membership reflects exactly the recipe names on the current expansion
call stack during successful evaluation; consequently the same recipe
(`S` of the diamond store) may appear in two independent,
non-overlapping branches without triggering the circular-reference
error.  When an error propagates out of a descent the removal is
skipped; the stale entry is unobservable because the error aborts the
entire calculation. -/
theorem C7_amended (db : Store) :
    (∀ fuel n v m res v',
      resource_costS db fuel n v m = (.ok res, v') → v' = v) ∧
    (∃ res, calculate_recipe_cost diamondStore "Top" (some 100) =
      .ok res) := by
  constructor
  · intro fuel
    exact (visiting_restoration db fuel).1
  · have hauxTop : recipe_cost_aux diamondStore 5 [⟨"L", 1⟩, ⟨"R", 1⟩]
        ["Top"] 1 0 [] = .ok (2, [("Bolt", 2, 1)]) := by
      simp [recipe_cost_aux, resource_cost, get_recipe,
        get_resource_unit_price, diamondStore, List.find?, mergeBreakdown,
        addToBreakdown, List.mergeSort]
      norm_num [addToBreakdown]
    have hass := calculate_recipe_cost_ok diamondStore "Top"
      ⟨"Top", 1, false, none, none, none, none, [⟨"L", 1⟩, ⟨"R", 1⟩], []⟩
      100 "custom" (some 100) 2 [("Bolt", 2, 1)] 0 []
      (by simp [get_recipe, diamondStore, List.find?, List.mergeSort,
        componentLE, stringLE, charListLE])
      (by simp [resolve_efficiency])
      (by norm_num)
      (by
        rw [show ((100 : ℚ) / 100) = 1 from by norm_num]
        exact hauxTop)
      (by norm_num) rfl
    refine ⟨⟨100, 2, 2, 1, [⟨"Bolt", 2, 1, 2⟩], none, "custom", none,
      none, none, 2, 2, [], 0⟩, ?_⟩
    rw [hass]
    simp [finalizeBreakdown, List.mergeSort, stringLE, charListLE]

/-- Witness for the amended C7 at a concrete input: the successful
expansion of the shared sub-recipe `S` of the diamond store returns the
visiting set exactly as it received it. -/
theorem C7_amended_witness :
    (resource_costS diamondStore 4 "S" ["Top"] 1).2 = ["Top"] := by
  have hcomp : resource_costS diamondStore 4 "S" ["Top"] 1 =
      (.ok (1, [("Bolt", 1, 1)]), ["Top"]) := by
    simp [resource_costS, recipe_cost_auxS, get_recipe,
      get_resource_unit_price, diamondStore, List.find?, List.mergeSort,
      mergeBreakdown, addToBreakdown]
  have hself : resource_costS diamondStore 4 "S" ["Top"] 1 =
      (.ok (1, [("Bolt", 1, 1)]),
        (resource_costS diamondStore 4 "S" ["Top"] 1).2) := by
    rw [hcomp]
  exact (C7_amended diamondStore).1 4 "S" ["Top"] 1 (1, [("Bolt", 1, 1)])
    ((resource_costS diamondStore 4 "S" ["Top"] 1).2) hself

end Theorems

end Zavod
